import Mathlib

/-!
A shallow embedding of the slintorm query builder (`src/queryBuilder.ts`)
and migrator (`src/migrator.ts`), with theorems settling the spec claims.

JavaScript runtime values are modelled by the inductive `JVal`; rows
(plain JS objects) are association lists of string keys to values,
operated on with JS object semantics (first-key lookup, in-place update,
insertion-order key enumeration).  Asynchronous `exec` calls are modelled
by a pure function `ExecFn` from a statement and its parameters to the
returned rows; every embedded operation additionally returns the ordered
trace of `(statement, params)` pairs it issued.
-/

namespace Slintorm

/-- JS values that flow through the query builder and the migrator. -/
inductive JVal where
  | null
  | undefined
  | bool (b : Bool)
  | num (n : Int)
  | str (s : String)
  | arr (xs : List JVal)
  | obj (kvs : List (String × JVal))

/-- JS truthiness (`Boolean(v)`).  `NaN` is not modelled; numbers are
integers, so a number is falsy exactly when it is `0`. -/
def truthy : JVal → Bool
  | .null => false
  | .undefined => false
  | .bool b => b
  | .num n => n != 0
  | .str s => s ≠ ""
  | .arr _ => true
  | .obj _ => true

/-- JS strict equality `===`.  Arrays and objects compare by reference in
JS; the query builder only ever compares key values taken from distinct
rows, so comparisons whose operands are arrays or objects are modelled as
`false`. -/
def jeq : JVal → JVal → Bool
  | .null, .null => true
  | .undefined, .undefined => true
  | .bool a, .bool b => a == b
  | .num a, .num b => a == b
  | .str a, .str b => a == b
  | _, _ => false

mutual
/-- JS `ToString`: the coercion applied by template-literal interpolation
and by property-key conversion. -/
def jvalToString : JVal → String
  | .null => "null"
  | .undefined => "undefined"
  | .bool b => if b then "true" else "false"
  | .num n => toString n
  | .str s => s
  | .arr xs => String.intercalate "," (jvalToStringL xs)
  | .obj _ => "[object Object]"

/-- `jvalToString` over a list of elements. -/
def jvalToStringL : List JVal → List String
  | [] => []
  | x :: xs => jvalToString x :: jvalToStringL xs
end

/-- A row: a plain JS object, keys in insertion order. -/
abbrev Row := List (String × JVal)

/-- `row[k]` — JS property read; missing keys give `undefined`. -/
def rowGet (row : Row) (k : String) : JVal :=
  match row.find? (fun p => p.1 == k) with
  | some p => p.2
  | none => .undefined

/-- `row.hasOwnProperty(k)` / `k in row`. -/
def rowHas (row : Row) (k : String) : Bool :=
  row.any (fun p => p.1 == k)

/-- `row[k] = v` — JS property write: updates the existing key in place,
otherwise appends the key at the end (insertion order). -/
def rowSet (row : Row) (k : String) (v : JVal) : Row :=
  if rowHas row k then
    row.map (fun p => if p.1 == k then (p.1, v) else p)
  else
    row ++ [(k, v)]

/-- Boolean infix test on character lists. -/
def listInfix (pat : List Char) : List Char → Bool
  | [] => pat.isEmpty
  | c :: rest => pat.isPrefixOf (c :: rest) || listInfix pat rest

/-- `s.includes(pat)` on strings. -/
def sIncludes (s pat : String) : Bool :=
  listInfix pat.data s.data

/-- Splitting a character list at every occurrence of a separator
character — JS `String.prototype.split` with a one-character separator
(structural, so that it evaluates by `rfl`). -/
def charSplit (sep : Char) : List Char → List (List Char)
  | [] => [[]]
  | c :: rest =>
    if c = sep then
      [] :: charSplit sep rest
    else
      match charSplit sep rest with
      | [] => [[c]]
      | l :: ls => (c :: l) :: ls

/-- Rejoin character-list segments with a separator character. -/
def charJoin (sep : Char) : List (List Char) → List Char
  | [] => []
  | [l] => l
  | l :: ls => l ++ sep :: charJoin sep ls

/-- JS `s.split(sep)` for a one-character separator, on `String`. -/
def jsSplit (sep : Char) (s : String) : List String :=
  (charSplit sep s.data).map (fun l => String.mk l)

/-- JS `parts.join(sep)` for a one-character separator. -/
def jsJoin (sep : Char) (parts : List String) : String :=
  String.mk (charJoin sep (parts.map (fun s => s.data)))

/-- `s.toLowerCase()`. -/
def jsToLower (s : String) : String :=
  String.mk (s.data.map Char.toLower)

/-- `s.startsWith(pat)`. -/
def jsStartsWith (s pat : String) : Bool :=
  pat.data.isPrefixOf s.data

/-- `s.slice(n)` — drop the first `n` characters. -/
def jsSlice (s : String) (n : Nat) : String :=
  String.mk (s.data.drop n)

/-- `s.length`. -/
def jsLen (s : String) : Nat := s.data.length

-- ---------------------------------------------------------------------
-- queryBuilder.ts : mapBooleans
-- ---------------------------------------------------------------------

/-- A field descriptor `{type, meta}`.  An absent `meta` object behaves
exactly like an empty one in all the code below (it is only ever read by
key lookups and key iteration), so `meta` is a plain association list. -/
structure Field where
  type : String
  meta : List (String × JVal) := []

/-- `val === 1 || val === true || val === "1" ? true : false` — the
boolean coercion applied to a boolean-typed column. -/
def normBool (v : JVal) : JVal :=
  .bool (jeq v (.num 1) || jeq v (.bool true) || jeq v (.str "1"))

/-- `mapBooleans(row, schemaFields)`: for every schema field whose
declared type name contains `"boolean"` (case-insensitively) and which is
present on the row, coerce the value with `normBool`. -/
def mapBooleans (row : Row) (schemaFields : List (String × Field)) : Row :=
  schemaFields.foldl
    (fun acc kf =>
      if sIncludes (jsToLower kf.2.type) "boolean" && rowHas acc kf.1 then
        rowSet acc kf.1 (normBool (rowGet acc kf.1))
      else acc)
    row

-- ---------------------------------------------------------------------
-- queryBuilder.ts : removeExcluded
-- ---------------------------------------------------------------------

/-- The exclude set scoped to key `k`: entries starting with `k ++ "."`,
with that prefix stripped. -/
def nestedFor (excludes : List String) (k : String) : List String :=
  (excludes.filter (fun e => jsStartsWith e (k ++ "."))).map
    (fun e => jsSlice e (jsLen k + 1))

mutual
/-- `removeExcluded(obj, excludes)`: recursively strip excluded dotted
paths from an arbitrary object/array graph. -/
def removeExcluded : JVal → List String → JVal
  | .obj kvs, excludes => .obj (removeExcludedObj kvs excludes)
  | .arr xs, excludes => .arr (removeExcludedArr xs excludes)
  | v, _ => v

def removeExcludedArr : List JVal → List String → List JVal
  | [], _ => []
  | x :: xs, excludes => removeExcluded x excludes :: removeExcludedArr xs excludes

def removeExcludedObj : List (String × JVal) → List String → List (String × JVal)
  | [], _ => []
  | (k, v) :: rest, excludes =>
    -- The source dispatches on the value's shape (array → map the
    -- recursion, object → recurse, other → keep); that three-way split
    -- is exactly `removeExcluded`'s own case split.
    if excludes.contains k then
      removeExcludedObj rest excludes
    else
      (k, removeExcluded v (nestedFor excludes k)) :: removeExcludedObj rest excludes
end

-- ---------------------------------------------------------------------
-- queryBuilder.ts : Dialects and buildSql
-- ---------------------------------------------------------------------

/-- Per-engine SQL syntax rules. -/
structure DialectAdapter where
  formatPlaceholder : Nat → String
  caseInsensitiveLike : String → Nat → String
  quoteIdentifier : String → String

/-- The `Dialects` record: engine name to adapter; missing names give
`none` (JS: `undefined`). -/
def Dialects (name : String) : Option DialectAdapter :=
  if name = "sqlite" then
    some { formatPlaceholder := fun _ => "?"
           caseInsensitiveLike := fun col _ => "LOWER(" ++ col ++ ") LIKE LOWER(?)"
           quoteIdentifier := fun n => "\x22" ++ n ++ "\x22" }
  else if name = "postgres" then
    some { formatPlaceholder := fun i => "$" ++ toString (i + 1)
           caseInsensitiveLike := fun col i => col ++ " ILIKE $" ++ toString (i + 1)
           quoteIdentifier := fun n => "\x22" ++ n ++ "\x22" }
  else if name = "mysql" then
    some { formatPlaceholder := fun _ => "?"
           caseInsensitiveLike := fun col _ => col ++ " LIKE ?"
           quoteIdentifier := fun n => "\x60" ++ n ++ "\x60" }
  else none

/-- `this.orm?.dialect || "sqlite"`: the engine name actually looked up —
the fallback applies only when the configured name is absent or the empty
string, not when it is unrecognized. -/
def effectiveDialect (ormDialect : Option String) : String :=
  match ormDialect with
  | none => "sqlite"
  | some s => if s = "" then "sqlite" else s

/-- One accumulated WHERE entry: either a raw SQL fragment (optionally
binding one value) or a structured `(column, op, value)` triple. -/
inductive WhereEntry where
  | raw (sql : String) (value : Option JVal)
  | cmp (column : String) (op : String) (value : JVal)

/-- The query intent accumulated by a `QueryBuilder` instance. -/
structure QB where
  selects : Option (List String) := none
  whereList : List WhereEntry := []
  orderByL : List String := []
  limitN : Option Int := none
  offsetN : Option Int := none
  joins : List String := []
  preloads : List String := []
  excludeL : List String := []
  table : String
  modelName : String
  ormDialect : Option String := none

/-- `buildSql()`: constructs the SELECT statement and its bound
parameters.  An unrecognized engine name makes the very first adapter use
throw in JS; this surfaces as `Except.error`. -/
def buildSql (qb : QB) : Except String (String × List JVal) :=
  match Dialects (effectiveDialect qb.ormDialect) with
  | none => .error "TypeError: Dialects lookup returned undefined"
  | some dialect =>
    let base := "SELECT " ++
      (match qb.selects with
       | some cols =>
         if cols.isEmpty then "*"
         else String.intercalate ", " (cols.map dialect.quoteIdentifier)
       | none => "*") ++
      " FROM " ++ dialect.quoteIdentifier qb.table ++
      (if qb.joins.isEmpty then "" else " " ++ String.intercalate " " qb.joins)
    let step := fun (st : List String × List JVal × Nat) (w : WhereEntry) =>
      match w with
      | .raw sql v =>
        (st.1 ++ [sql], st.2.1 ++ (match v with | some x => [x] | none => []), st.2.2)
      | .cmp col op v =>
        (st.1 ++ [dialect.quoteIdentifier col ++ " " ++ op ++ " " ++
                  dialect.formatPlaceholder st.2.2],
         st.2.1 ++ [v], st.2.2 + 1)
    let folded := qb.whereList.foldl step ([], [], 0)
    let withWhere := base ++
      (if qb.whereList.isEmpty then ""
       else " WHERE " ++ String.intercalate " AND " folded.1)
    let withOrder := withWhere ++
      (if qb.orderByL.isEmpty then ""
       else " ORDER BY " ++ String.intercalate ", "
         (qb.orderByL.map (fun c =>
            let parts := jsSplit ' ' c
            dialect.quoteIdentifier (parts.headD "") ++ " " ++
              ((parts.drop 1).headD ""))))
    let withLimit := withOrder ++
      (match qb.limitN with | some n => " LIMIT " ++ toString n | none => "")
    let final := withLimit ++
      (match qb.offsetN with | some n => " OFFSET " ++ toString n | none => "")
    .ok (final, folded.2.1)

/-- `ILike(column, value)`: pushes a raw case-insensitive LIKE predicate;
like `buildSql`, it dereferences the dialect adapter at once. -/
def qbILike (qb : QB) (column : String) (value : String) : Except String QB :=
  match Dialects (effectiveDialect qb.ormDialect) with
  | none => .error "TypeError: Dialects lookup returned undefined"
  | some dialect =>
    let clause := dialect.caseInsensitiveLike column qb.whereList.length
    .ok { qb with whereList :=
      qb.whereList ++ [.raw clause (some (.str ("%" ++ value ++ "%")))] }

-- ---------------------------------------------------------------------
-- queryBuilder.ts : applyPreloads
-- ---------------------------------------------------------------------

/-- One model's schema entry: `{table, primaryKey?, fields}`. -/
structure ModelSchema where
  table : String
  primaryKey : Option String := none
  fields : List (String × Field) := []

/-- `schema[name]` lookup. -/
def schemaFind (schema : List (String × ModelSchema)) (name : String) :
    Option ModelSchema :=
  (schema.find? (fun p => p.1 == name)).map (fun p => p.2)

/-- `rows.map(r => r[rootPK])` reads the root primary key directly; when
the schema omits `primaryKey`, JS reads `r[undefined]`, i.e. the property
named `"undefined"`. -/
def pkKeyOf (m : ModelSchema) : String :=
  match m.primaryKey with
  | some k => k
  | none => "undefined"

/-- `targetSchema.primaryKey || "id"`. -/
def targetPKOf (t : ModelSchema) : String :=
  match t.primaryKey with
  | none => "id"
  | some s => if s = "" then "id" else s

/-- Relation metadata extracted from a field's meta keys starting with
`"relation"`/`"relationship"`. -/
structure RelationMeta where
  fieldName : String
  kind : String
  targetModel : JVal
  foreignKey : JVal
  relatedKey : JVal
  through : JVal

/-- Build the relation list exactly as `applyPreloads` does: every meta
key starting with `"relation"` (which subsumes `"relationship"`)
contributes one entry whose kind is the second space-separated word of
the key. -/
def relationsOf (fields : List (String × Field)) : List RelationMeta :=
  fields.foldl
    (fun acc kf =>
      acc ++ kf.2.meta.filterMap (fun kv =>
        if jsStartsWith kv.1 "relation" || jsStartsWith kv.1 "relationship" then
          some { fieldName := kf.1
                 kind := (jsSplit ' ' kv.1).getD 1 ""
                 targetModel := kv.2
                 foreignKey := rowGet kf.2.meta "foreignKey"
                 relatedKey := rowGet kf.2.meta "relatedKey"
                 through := rowGet kf.2.meta "through" }
        else none))
    []

/-- One iteration of the preload-grouping loop: split the dotted path,
register its root (keeping first-encounter order) and push the
dot-joined remainder when one exists. -/
def groupStep (acc : List (String × List String)) (p : String) :
    List (String × List String) :=
  let parts := jsSplit '.' p
  let root := parts.headD ""
  let rest := parts.drop 1
  let add := if rest.isEmpty then [] else [jsJoin '.' rest]
  if acc.any (fun e => e.1 == root) then
    acc.map (fun e => if e.1 == root then (e.1, e.2 ++ add) else e)
  else
    acc ++ [(root, add)]

/-- Group dotted preload paths by root, keeping first-encounter order of
roots and accumulating the dot-joined remainders. -/
def groupPreloads (preloads : List String) : List (String × List String) :=
  preloads.foldl groupStep []

/-- The trace of statements issued: `(sql, params)` in execution order. -/
abbrev Trace := List (String × List JVal)

/-- The resolved-promise view of the async execute function:
`exec(sql, params).rows || []`. -/
abbrev ExecFn := String → List JVal → List Row

/-- The builder context that `applyPreloads` reads; the nested recursion
constructs a child builder with the same schema, exec, orm and — passing
`this.modelName` rather than the target model — the same model name. -/
structure PreEnv where
  schema : List (String × ModelSchema)
  modelName : String
  ormDialect : Option String
  exec : ExecFn

/-- `[...new Set(xs)]`: dedupe, keeping first occurrences. -/
def dedupJ (xs : List JVal) : List JVal :=
  xs.foldl (fun acc x => if acc.any (fun y => jeq y x) then acc else acc ++ [x]) []

/-- `ids.map((_, i) => dialect.formatPlaceholder(i)).join(",")`. -/
def placeholdersFor (d : DialectAdapter) (n : Nat) : String :=
  String.intercalate "," ((List.range n).map d.formatPlaceholder)

/-- A run of `n` spaces (template-literal indentation). -/
def sp (n : Nat) : String := String.mk (List.replicate n ' ')

/-- The one-to-many batch query (template literal with its newline and
21-space indentation). -/
def sqlOneToMany (d : DialectAdapter) (tbl fk ph : String) : String :=
  "SELECT * FROM " ++ d.quoteIdentifier tbl ++ "\n" ++ sp 21 ++
    "WHERE " ++ d.quoteIdentifier fk ++ " IN (" ++ ph ++ ")"

/-- The many-to-one/one-to-one query when the parent carries the FK. -/
def sqlSinglePK (d : DialectAdapter) (tbl pk ph : String) : String :=
  "SELECT * FROM " ++ d.quoteIdentifier tbl ++ "\n" ++ sp 13 ++
    "WHERE " ++ d.quoteIdentifier pk ++ " IN (" ++ ph ++ ")"

/-- The many-to-one/one-to-one reverse-lookup query. -/
def sqlSingleFK (d : DialectAdapter) (tbl fk ph : String) : String :=
  "SELECT * FROM " ++ d.quoteIdentifier tbl ++ "\n" ++ sp 13 ++
    "WHERE " ++ d.quoteIdentifier fk ++ " IN (" ++ ph ++ ")"

/-- The many-to-many junction query. -/
def sqlJunction (d : DialectAdapter) (through fk ph : String) : String :=
  "SELECT * FROM " ++ d.quoteIdentifier through ++ "\n" ++ sp 22 ++
    "WHERE " ++ d.quoteIdentifier fk ++ " IN (" ++ ph ++ ")"

/-- The many-to-many target query; the source interpolates `targetPK`
unquoted here. -/
def sqlTargets (d : DialectAdapter) (tbl targetPK ph : String) : String :=
  "SELECT * FROM " ++ d.quoteIdentifier tbl ++ "\n" ++ sp 22 ++
    "WHERE " ++ targetPK ++ " IN (" ++ ph ++ ")"

/-- The junction re-query issued by the nested many-to-many branch. -/
def sqlJunctionNested (d : DialectAdapter) (through fk ph : String) : String :=
  "SELECT * FROM " ++ d.quoteIdentifier through ++ "\n" ++ sp 29 ++
    "WHERE " ++ d.quoteIdentifier fk ++ " IN (" ++ ph ++ ")"

/-- `v?.[k]` on an arbitrary value: property read on objects, `undefined`
otherwise. -/
def jGet (v : JVal) (k : String) : JVal :=
  match v with
  | .obj kvs => rowGet kvs k
  | _ => .undefined

/-- Unwrap the object produced by `removeExcluded` on an object. -/
def objToRow : JVal → Row
  | .obj kvs => kvs
  | _ => []

/-- `cleanRow(row, targetSchema, root)`: boolean-normalize, then apply
the nested excludes scoped to `root` when any exist. -/
def cleanRow (excludeL : List String) (targetFields : List (String × Field))
    (root : String) (row : Row) : Row :=
  let clean := mapBooleans row targetFields
  let ne := nestedFor excludeL root
  if ne.isEmpty then clean else objToRow (removeExcluded (.obj clean) ne)

/-- `applyExcludes(row)`: delete each non-dotted excluded key. -/
def applyExcludes (excludeL : List String) (row : Row) : Row :=
  if excludeL.isEmpty then row
  else
    excludeL.foldl
      (fun r f => if sIncludes f "." then r else r.filter (fun p => !(p.1 == f)))
      row

/-- `rows.map(r => r[rootPK]).filter(Boolean)` — the batch keys: distinct
truthiness-filtered reads of the root key across the parent rows. -/
def parentIdsOf (rootPK : String) (rows : List Row) : List JVal :=
  (rows.map (fun r => rowGet r rootPK)).filter truthy

/-- The per-kind resolution switch of `applyPreloads`: returns the
updated rows, the fetched related rows and the statements issued. -/
def preloadSwitch (dialect : DialectAdapter) (env : PreEnv)
    (excludeL : List String) (rootPK : String) (targetSchema : ModelSchema)
    (targetPK : String) (relation : RelationMeta) (root : String)
    (rows : List Row) (parentIds : List JVal) (placeholders : String) :
    List Row × List Row × Trace :=
  let kind := relation.kind
  let fkJ := relation.foreignKey
  let fkK := jvalToString fkJ
  let thrK := jvalToString relation.through
  let relK := jvalToString relation.relatedKey
  if kind == "onetomany" then
    if !truthy fkJ then (rows, ([] : List Row), ([] : Trace))
    else
      let sql := sqlOneToMany dialect targetSchema.table fkK placeholders
      let related := env.exec sql parentIds
      (rows.map (fun row =>
         rowSet row root (.arr
           ((related.filter (fun r => jeq (rowGet r fkK) (rowGet row rootPK))).map
             (fun r => .obj (cleanRow excludeL targetSchema.fields root r))))),
       related, [(sql, parentIds)])
  else if kind == "manytoone" || kind == "onetoone" then
    if !truthy fkJ then (rows, [], [])
    else
      let parentHasFK := rowHas (rows.headD []) fkK
      let fkValues :=
        if parentHasFK then (rows.map (fun r => rowGet r fkK)).filter truthy
        else parentIds
      if fkValues.isEmpty then
        (rows.map (fun r => rowSet r root .null), [], [])
      else
        let ph := placeholdersFor dialect fkValues.length
        let sql :=
          if parentHasFK then sqlSinglePK dialect targetSchema.table targetPK ph
          else sqlSingleFK dialect targetSchema.table fkK ph
        let related := env.exec sql fkValues
        (rows.map (fun row =>
           let rel :=
             if parentHasFK then
               related.find? (fun r => jeq (rowGet r targetPK) (rowGet row fkK))
             else
               related.find? (fun r => jeq (rowGet r fkK) (rowGet row rootPK))
           rowSet row root
             (match rel with
              | some r => .obj (cleanRow excludeL targetSchema.fields root r)
              | none => .null)),
         related, [(sql, fkValues)])
  else if kind == "manytomany" then
    if !(truthy fkJ && truthy relation.relatedKey && truthy relation.through) then
      (rows, [], [])
    else
      let jSql := sqlJunction dialect thrK fkK placeholders
      let junction := env.exec jSql parentIds
      let targetIds := dedupJ (junction.map (fun j => rowGet j relK))
      if targetIds.isEmpty then
        (rows.map (fun r => rowSet r root (.arr [])), [], [(jSql, parentIds)])
      else
        let tph := placeholdersFor dialect targetIds.length
        let tSql := sqlTargets dialect targetSchema.table targetPK tph
        let related := env.exec tSql targetIds
        (rows.map (fun row =>
           let ids := (junction.filter (fun j => jeq (rowGet j fkK) (rowGet row rootPK))).map
             (fun j => rowGet j relK)
           rowSet row root (.arr
             ((related.filter (fun r => ids.any (fun i => jeq i (rowGet r targetPK)))).map
               (fun r => .obj (cleanRow excludeL targetSchema.fields root r))))),
         related, [(jSql, parentIds), (tSql, targetIds)])
  else (rows, [], [])

/-- The per-root body of `applyPreloads`'s resolution loop.  `recurse` is
the nested `qb.applyPreloads` call made by the child builder (which JS
constructs with the parent's own `modelName`, schema, exec and orm, so
only the preload and exclude lists change). -/
def preloadStep
    (recurse : List String → List String → List Row → Option (List Row × Trace))
    (env : PreEnv) (excludeL : List String) (modelSchema : ModelSchema)
    (st : List Row × Trace) (entry : String × List String) :
    Option (List Row × Trace) :=
  let dialectO := Dialects (effectiveDialect env.ormDialect)
  let rootPK := pkKeyOf modelSchema
  let relations := relationsOf modelSchema.fields
  let rows := st.1
  let tr := st.2
  let root := entry.1
  match relations.find? (fun r => r.fieldName == root) with
          | none => some (rows, tr)
          | some relation =>
            match schemaFind env.schema (jvalToString relation.targetModel) with
            | none => some (rows, tr)
            | some targetSchema =>
              let targetPK := targetPKOf targetSchema
              let kind := relation.kind
              let parentIds := parentIdsOf rootPK rows
              if parentIds.isEmpty then
                some (rows.map (fun r =>
                  rowSet r root (if kind == "onetomany" then .arr [] else .null)), tr)
              else
                match dialectO with
                | none => none
                | some dialect =>
                  let placeholders := placeholdersFor dialect parentIds.length
                  let fkK := jvalToString relation.foreignKey
                  let thrK := jvalToString relation.through
                  let relK := jvalToString relation.relatedKey
                  let kind := relation.kind
                  match preloadSwitch dialect env excludeL rootPK targetSchema
                      targetPK relation root rows parentIds placeholders with
                  | (rows1, related, tr1) =>
                  if entry.2.isEmpty || related.isEmpty then some (rows1, tr ++ tr1)
                  else
                    match recurse entry.2 (nestedFor excludeL root) related with
                    | none => none
                    | some nres =>
                      let nestedLoaded := nres.1
                      let tr2 := nres.2
                      if kind == "onetomany" then
                        some (rows1.map (fun row =>
                          rowSet row root (.arr
                            ((nestedLoaded.filter (fun r => jeq (rowGet r fkK) (rowGet row rootPK))).map .obj))),
                          tr ++ tr1 ++ tr2)
                      else if kind == "manytoone" || kind == "onetoone" then
                        some (rows1.map (fun row =>
                          match nestedLoaded.find? (fun r =>
                              jeq (rowGet r targetPK) (jGet (rowGet row root) targetPK)) with
                          | some m => rowSet row root (.obj m)
                          | none => row),
                          tr ++ tr1 ++ tr2)
                      else if kind == "manytomany" then
                        let jSql2 := sqlJunctionNested dialect thrK fkK placeholders
                        let junction2 := env.exec jSql2 parentIds
                        some (rows1.map (fun row =>
                          let ids := (junction2.filter (fun j => jeq (rowGet j fkK) (rowGet row rootPK))).map
                            (fun j => rowGet j relK)
                          rowSet row root (.arr
                            ((nestedLoaded.filter (fun r => ids.any (fun i => jeq i (rowGet r targetPK)))).map .obj))),
                          tr ++ tr1 ++ tr2 ++ [(jSql2, parentIds)])
                      else some (rows1, tr ++ tr1 ++ tr2)

/-- `applyPreloads(rows)`, fuel-indexed: `none` means the recursion fuel
ran out, or the dialect adapter was `undefined` at its first use (a JS
`TypeError`).  Each recursion level consumes one fuel unit and one
segment of every nested dotted path. -/
def applyPreloadsF : Nat → PreEnv → List String → List String → List Row →
    Option (List Row × Trace)
  | 0, _, _, _, _ => none
  | fuel + 1, env, preloads, excludeL, rows =>
    if rows.isEmpty then some (rows, []) else
    match schemaFind env.schema env.modelName with
    | none => some (rows, [])
    | some modelSchema =>
      match (groupPreloads preloads).foldlM
        (preloadStep (fun p e r => applyPreloadsF fuel env p e r) env excludeL modelSchema)
        ((rows, []) : List Row × Trace) with
      | none => none
      | some res => some (res.1.map (applyExcludes excludeL), res.2)

/-- The number of dot-separated segments of a preload path. -/
def pathDepth (p : String) : Nat := (charSplit '.' p.data).length

/-- An always-sufficient recursion fuel for a preload path list. -/
def preloadFuel (preloads : List String) : Nat :=
  preloads.foldl (fun m p => max m (pathDepth p)) 0 + 1

/-- `applyPreloads(rows)` with its always-sufficient fuel. -/
def applyPreloads (env : PreEnv) (preloads excludeL : List String)
    (rows : List Row) : Option (List Row × Trace) :=
  applyPreloadsF (preloadFuel preloads) env preloads excludeL rows

-- ---------------------------------------------------------------------
-- migrator.ts (and utils: tsTypeToSqlType)
-- ---------------------------------------------------------------------

/-- The SQL drivers the migrator distinguishes. -/
inductive Driver where
  | sqlite
  | postgres
  | mysql
deriving DecidableEq

/-- Double-quote character. -/
def dq : Char := Char.ofNat 34
/-- Single-quote character. -/
def apos : Char := Char.ofNat 39
/-- `dq` as a string. -/
def dqS : String := String.mk [dq]
/-- `apos` as a string. -/
def aposS : String := String.mk [apos]

/-- JS whitespace for `trim` purposes. -/
def isWS (c : Char) : Bool :=
  c = ' ' || c = Char.ofNat 9 || c = Char.ofNat 10 || c = Char.ofNat 13

/-- `s.trim()`. -/
def jsTrim (s : String) : String :=
  String.mk (((s.data.dropWhile isWS).reverse.dropWhile isWS).reverse)

/-- `tsTypeToSqlType` from `utils`: map a TS type name to a SQL type. -/
def tsTypeToSqlType (tsType : String) : String :=
  let t := jsTrim (jsToLower tsType)
  if sIncludes t "string" then "TEXT"
  else if sIncludes t "number" || sIncludes t "int" || sIncludes t "float" then "INTEGER"
  else if sIncludes t "boolean" || sIncludes t "bool" then "BOOLEAN"
  else if sIncludes t "date" || sIncludes t "time" then "DATETIME"
  else "TEXT"

/-- Is this value JS `undefined`? -/
def JVal.isUndefinedJ : JVal → Bool
  | .undefined => true
  | _ => false

mutual
/-- `JSON.stringify` (no string escaping is modelled; the values the
migrator stringifies are introspection rows of plain names).  Keys whose
value is `undefined` are omitted, as in JS. -/
def jsonStringify : JVal → String
  | .null => "null"
  | .undefined => "undefined"
  | .bool b => if b then "true" else "false"
  | .num n => toString n
  | .str s => dqS ++ s ++ dqS
  | .arr xs => "[" ++ String.intercalate "," (jsonStringifyL xs) ++ "]"
  | .obj kvs => "\x7b" ++ String.intercalate "," (jsonStringifyO kvs) ++ "\x7d"

/-- `jsonStringify` over array elements. -/
def jsonStringifyL : List JVal → List String
  | [] => []
  | x :: xs => jsonStringify x :: jsonStringifyL xs

/-- `jsonStringify` over object entries, omitting `undefined` values. -/
def jsonStringifyO : List (String × JVal) → List String
  | [] => []
  | (k, v) :: rest =>
    if v.isUndefinedJ then jsonStringifyO rest
    else (dqS ++ k ++ dqS ++ ":" ++ jsonStringify v) :: jsonStringifyO rest
end

/-- `parseEnumValues`: strip surrounding parens/space, split on commas,
trim and strip one surrounding quote from each value. -/
def parseEnumValues (enumMeta : String) : List String :=
  let l := enumMeta.data
  let cleaned := ((l.dropWhile (fun c => c = '(' || isWS c)).reverse.dropWhile
    (fun c => c = ')' || isWS c)).reverse
  (charSplit ',' cleaned).map (fun seg =>
    let t := (jsTrim (String.mk seg)).data
    let t := if t.head? = some apos then t.drop 1 else t
    let t := if t.getLast? = some apos then t.dropLast else t
    String.mk t)

/-- Escape single quotes by doubling (`v.replace(/'/g, "''")`). -/
def escapeQuotes (s : String) : String :=
  String.mk (s.data.flatMap (fun c => if c = apos then [apos, apos] else [c]))

/-- `createEnumColumn`: on Postgres, look the enum type up in `pg_type`
and create it when missing; return the (quoted) type name to use. -/
def createEnumColumn (driver : Driver) (exec : ExecFn)
    (table col : String) (values : List String) : String × Trace :=
  if driver ≠ .postgres then (dqS ++ table ++ "_" ++ col ++ "_enum" ++ dqS, [])
  else
    let typeName := table ++ "_" ++ col ++ "_enum"
    let check := "SELECT 1 FROM pg_type WHERE typname = $1"
    let res := exec check [.str typeName]
    let tr :=
      if res.isEmpty then
        let vals := String.intercalate ", "
          (values.map (fun v => aposS ++ escapeQuotes v ++ aposS))
        [(check, [JVal.str typeName]),
         ("CREATE TYPE " ++ dqS ++ typeName ++ dqS ++ " AS ENUM (" ++ vals ++ ")",
          ([] : List JVal))]
      else [(check, [JVal.str typeName])]
    (dqS ++ typeName ++ dqS, tr)

/-- The per-column SQL artifacts accumulated by `ensureTable`'s column
loop. -/
structure ColsOut where
  colsSql : List String := []
  indexSql : List String := []
  inlineConstraints : List String := []
  postConstraints : List String := []
  commentSql : List String := []
  primaryDeclared : Bool := false
  trace : Trace := []

/-- Strip a trailing parenthesized group (`/\(.+\)$/`). -/
def stripParenSuffix (s : String) : String :=
  let l := s.data
  if l.getLast? = some ')' then
    let pre := l.takeWhile (fun c => c ≠ '(')
    if pre.length + 3 ≤ l.length then String.mk pre else s
  else s

/-- `ensureTable`'s column loop (migrator second implementation): build
column definitions, index statements, inline and post-creation
constraints, plus any Postgres enum-type statements issued on the way. -/
def buildColumns (driver : Driver) (exec : ExecFn) (table : String)
    (tblExists : Bool) (fields : List (String × Field)) : ColsOut :=
  fields.foldl
    (fun st kf =>
      let col := kf.1
      let info := kf.2
      if info.type = "" then st
      else
        let mget := fun (k : String) => rowGet info.meta k
        let typed : String × Trace :=
          if truthy (mget "enum") then
            if driver = .postgres then
              createEnumColumn driver exec table col (parseEnumValues (jvalToString (mget "enum")))
            else ("VARCHAR(255)", [])
          else if truthy (mget "json") then
            (if driver = .postgres then "JSONB"
             else if driver = .sqlite then "TEXT" else "JSON", [])
          else if info.type = "Date" then
            (if driver = .sqlite then "INTEGER"
             else if driver = .postgres then "TIMESTAMP" else "DATETIME", [])
          else
            let s0 := tsTypeToSqlType info.type
            (if truthy (mget "length") && sIncludes (jsToLower s0) "char" then
               stripParenSuffix s0 ++ "(" ++ jvalToString (mget "length") ++ ")"
             else s0, [])
        let generated :=
          if truthy (mget "generatedAlways") then
            "GENERATED ALWAYS AS (" ++ jvalToString (mget "generatedAlways") ++ ") STORED"
          else ""
        let collate :=
          if truthy (mget "collate") then "COLLATE " ++ jvalToString (mget "collate") else ""
        let check :=
          match mget "enum" with
          | .arr vs =>
            "CHECK (" ++ dqS ++ col ++ dqS ++ " IN (" ++
              String.intercalate ", " (vs.map (fun v => aposS ++ jvalToString v ++ aposS)) ++ "))"
          | _ =>
            if truthy (mget "check") then "CHECK (" ++ jvalToString (mget "check") ++ ")" else ""
        let isNullable :=
          if truthy (mget "nullable") || sIncludes info.type "undefined" then "" else "NOT NULL"
        let d0 :=
          if !(mget "default").isUndefinedJ then
            let defv := mget "default"
            if jeq defv (.str "CURRENT_TIMESTAMP") then
              if driver = .sqlite then
                "DEFAULT (datetime(" ++ aposS ++ "now" ++ aposS ++ "))"
              else "DEFAULT CURRENT_TIMESTAMP"
            else
              match defv with
              | .str s => "DEFAULT " ++ aposS ++ s ++ aposS
              | .bool b => "DEFAULT " ++ (if b then "1" else "0")
              | other => "DEFAULT " ++ jvalToString other
          else ""
        let d1 :=
          if truthy (mget "defaultFn") then "DEFAULT " ++ jvalToString (mget "defaultFn") else d0
        let d2 :=
          if truthy (mget "json") && truthy (mget "jsonDefault") then
            "DEFAULT " ++ aposS ++ jsonStringify (mget "jsonDefault") ++ aposS
          else d1
        let d3 := if truthy (mget "softDelete") && d2 = "" then "DEFAULT NULL" else d2
        let d4 :=
          if truthy (mget "onUpdateNow") && driver = .mysql then
            if d3 ≠ "" then d3 ++ " ON UPDATE CURRENT_TIMESTAMP"
            else "ON UPDATE CURRENT_TIMESTAMP"
          else d3
        let pkStep : String × String × Bool :=
          if truthy (mget "auto") && !st.primaryDeclared then
            if driver = .sqlite then ("INTEGER", "PRIMARY KEY AUTOINCREMENT", true)
            else if driver = .postgres then ("SERIAL", "PRIMARY KEY", true)
            else ("INTEGER", "AUTO_INCREMENT PRIMARY KEY", true)
          else if (match mget "primaryKey" with | .bool true => true | _ => false)
              && !st.primaryDeclared then
            (typed.1, "PRIMARY KEY", true)
          else (typed.1, "", st.primaryDeclared)
        let parts := String.intercalate " "
          (([dqS ++ col ++ dqS, pkStep.1, pkStep.2.1, isNullable, d4, generated,
             collate, check]).filter (fun s => s ≠ ""))
        let st := { st with
          colsSql := st.colsSql ++ [parts]
          primaryDeclared := pkStep.2.2
          trace := st.trace ++ typed.2 }
        let st :=
          if truthy (mget "comment") && driver = .postgres then
            { st with commentSql := st.commentSql ++
                ["COMMENT ON COLUMN " ++ dqS ++ table ++ dqS ++ "." ++ dqS ++ col ++ dqS ++
                 " IS " ++ aposS ++ jvalToString (mget "comment") ++ aposS] }
          else st
        let st :=
          if truthy (mget "index") then
            { st with indexSql := st.indexSql ++
                ["CREATE INDEX IF NOT EXISTS idx_" ++ table ++ "_" ++ col ++
                 " ON " ++ dqS ++ table ++ dqS ++ "(" ++ dqS ++ col ++ dqS ++ ")"] }
          else st
        let st :=
          if truthy (mget "unique") then
            if !tblExists then
              { st with inlineConstraints := st.inlineConstraints ++
                  ["CONSTRAINT unq_" ++ table ++ "_" ++ col ++ " UNIQUE (" ++ dqS ++ col ++ dqS ++ ")"] }
            else
              { st with postConstraints := st.postConstraints ++
                  ["ALTER TABLE " ++ dqS ++ table ++ dqS ++ " ADD CONSTRAINT unq_" ++ table ++
                   "_" ++ col ++ " UNIQUE (" ++ dqS ++ col ++ dqS ++ ")"] }
          else st
        if truthy (mget "foreignKey") then
          let refTable := jvalToString (mget "foreignKey")
          let fkStmt :=
            "FOREIGN KEY (" ++ dqS ++ col ++ dqS ++ ") REFERENCES " ++ dqS ++ refTable ++ dqS ++ "(id)" ++
            (if truthy (mget "onDelete") then " ON DELETE " ++ jvalToString (mget "onDelete") else "") ++
            (if truthy (mget "onUpdate") then " ON UPDATE " ++ jvalToString (mget "onUpdate") else "") ++
            (if truthy (mget "match") then " MATCH " ++ jvalToString (mget "match") else "") ++
            (if truthy (mget "deferrable") then " DEFERRABLE INITIALLY DEFERRED" else "")
          if !tblExists then
            { st with inlineConstraints := st.inlineConstraints ++ [fkStmt] }
          else
            { st with postConstraints := st.postConstraints ++
                ["ALTER TABLE " ++ dqS ++ table ++ dqS ++ " ADD " ++ fkStmt] }
        else st)
    {}

/-- The fold step of `buildColumns`' column loop, hoisted to a named
definition for reasoning (`buildColumns` is exactly its fold, see
`buildColumns_eq_colStep`). -/
def colStep (driver : Driver) (exec : ExecFn) (table : String)
    (tblExists : Bool) (st : ColsOut) (kf : String × Field) : ColsOut :=
  let col := kf.1
  let info := kf.2
  if info.type = "" then st
  else
    let mget := fun (k : String) => rowGet info.meta k
    let typed : String × Trace :=
      if truthy (mget "enum") then
        if driver = .postgres then
          createEnumColumn driver exec table col (parseEnumValues (jvalToString (mget "enum")))
        else ("VARCHAR(255)", [])
      else if truthy (mget "json") then
        (if driver = .postgres then "JSONB"
         else if driver = .sqlite then "TEXT" else "JSON", [])
      else if info.type = "Date" then
        (if driver = .sqlite then "INTEGER"
         else if driver = .postgres then "TIMESTAMP" else "DATETIME", [])
      else
        let s0 := tsTypeToSqlType info.type
        (if truthy (mget "length") && sIncludes (jsToLower s0) "char" then
           stripParenSuffix s0 ++ "(" ++ jvalToString (mget "length") ++ ")"
         else s0, [])
    let generated :=
      if truthy (mget "generatedAlways") then
        "GENERATED ALWAYS AS (" ++ jvalToString (mget "generatedAlways") ++ ") STORED"
      else ""
    let collate :=
      if truthy (mget "collate") then "COLLATE " ++ jvalToString (mget "collate") else ""
    let check :=
      match mget "enum" with
      | .arr vs =>
        "CHECK (" ++ dqS ++ col ++ dqS ++ " IN (" ++
          String.intercalate ", " (vs.map (fun v => aposS ++ jvalToString v ++ aposS)) ++ "))"
      | _ =>
        if truthy (mget "check") then "CHECK (" ++ jvalToString (mget "check") ++ ")" else ""
    let isNullable :=
      if truthy (mget "nullable") || sIncludes info.type "undefined" then "" else "NOT NULL"
    let d0 :=
      if !(mget "default").isUndefinedJ then
        let defv := mget "default"
        if jeq defv (.str "CURRENT_TIMESTAMP") then
          if driver = .sqlite then
            "DEFAULT (datetime(" ++ aposS ++ "now" ++ aposS ++ "))"
          else "DEFAULT CURRENT_TIMESTAMP"
        else
          match defv with
          | .str s => "DEFAULT " ++ aposS ++ s ++ aposS
          | .bool b => "DEFAULT " ++ (if b then "1" else "0")
          | other => "DEFAULT " ++ jvalToString other
      else ""
    let d1 :=
      if truthy (mget "defaultFn") then "DEFAULT " ++ jvalToString (mget "defaultFn") else d0
    let d2 :=
      if truthy (mget "json") && truthy (mget "jsonDefault") then
        "DEFAULT " ++ aposS ++ jsonStringify (mget "jsonDefault") ++ aposS
      else d1
    let d3 := if truthy (mget "softDelete") && d2 = "" then "DEFAULT NULL" else d2
    let d4 :=
      if truthy (mget "onUpdateNow") && driver = .mysql then
        if d3 ≠ "" then d3 ++ " ON UPDATE CURRENT_TIMESTAMP"
        else "ON UPDATE CURRENT_TIMESTAMP"
      else d3
    let pkStep : String × String × Bool :=
      if truthy (mget "auto") && !st.primaryDeclared then
        if driver = .sqlite then ("INTEGER", "PRIMARY KEY AUTOINCREMENT", true)
        else if driver = .postgres then ("SERIAL", "PRIMARY KEY", true)
        else ("INTEGER", "AUTO_INCREMENT PRIMARY KEY", true)
      else if (match mget "primaryKey" with | .bool true => true | _ => false)
          && !st.primaryDeclared then
        (typed.1, "PRIMARY KEY", true)
      else (typed.1, "", st.primaryDeclared)
    let parts := String.intercalate " "
      (([dqS ++ col ++ dqS, pkStep.1, pkStep.2.1, isNullable, d4, generated,
         collate, check]).filter (fun s => s ≠ ""))
    let st := { st with
      colsSql := st.colsSql ++ [parts]
      primaryDeclared := pkStep.2.2
      trace := st.trace ++ typed.2 }
    let st :=
      if truthy (mget "comment") && driver = .postgres then
        { st with commentSql := st.commentSql ++
            ["COMMENT ON COLUMN " ++ dqS ++ table ++ dqS ++ "." ++ dqS ++ col ++ dqS ++
             " IS " ++ aposS ++ jvalToString (mget "comment") ++ aposS] }
      else st
    let st :=
      if truthy (mget "index") then
        { st with indexSql := st.indexSql ++
            ["CREATE INDEX IF NOT EXISTS idx_" ++ table ++ "_" ++ col ++
             " ON " ++ dqS ++ table ++ dqS ++ "(" ++ dqS ++ col ++ dqS ++ ")"] }
      else st
    let st :=
      if truthy (mget "unique") then
        if !tblExists then
          { st with inlineConstraints := st.inlineConstraints ++
              ["CONSTRAINT unq_" ++ table ++ "_" ++ col ++ " UNIQUE (" ++ dqS ++ col ++ dqS ++ ")"] }
        else
          { st with postConstraints := st.postConstraints ++
              ["ALTER TABLE " ++ dqS ++ table ++ dqS ++ " ADD CONSTRAINT unq_" ++ table ++
               "_" ++ col ++ " UNIQUE (" ++ dqS ++ col ++ dqS ++ ")"] }
      else st
    if truthy (mget "foreignKey") then
      let refTable := jvalToString (mget "foreignKey")
      let fkStmt :=
        "FOREIGN KEY (" ++ dqS ++ col ++ dqS ++ ") REFERENCES " ++ dqS ++ refTable ++ dqS ++ "(id)" ++
        (if truthy (mget "onDelete") then " ON DELETE " ++ jvalToString (mget "onDelete") else "") ++
        (if truthy (mget "onUpdate") then " ON UPDATE " ++ jvalToString (mget "onUpdate") else "") ++
        (if truthy (mget "match") then " MATCH " ++ jvalToString (mget "match") else "") ++
        (if truthy (mget "deferrable") then " DEFERRABLE INITIALLY DEFERRED" else "")
      if !tblExists then
        { st with inlineConstraints := st.inlineConstraints ++ [fkStmt] }
      else
        { st with postConstraints := st.postConstraints ++
            ["ALTER TABLE " ++ dqS ++ table ++ dqS ++ " ADD " ++ fkStmt] }
    else st

/-- The post-creation constraint statements a single declared field
contributes when its table already exists: one `ADD CONSTRAINT … UNIQUE`
statement per unique field and one `ADD FOREIGN KEY` statement per
foreign-key field, in that order (characterizes `buildColumns`'
`postConstraints` output field by field). -/
def perFieldPost (table : String) (kf : String × Field) : List String :=
  if kf.2.type = "" then []
  else
    (if truthy (rowGet kf.2.meta "unique") then
       ["ALTER TABLE " ++ dqS ++ table ++ dqS ++ " ADD CONSTRAINT unq_" ++ table ++
        "_" ++ kf.1 ++ " UNIQUE (" ++ dqS ++ kf.1 ++ dqS ++ ")"]
     else []) ++
    (if truthy (rowGet kf.2.meta "foreignKey") then
       ["ALTER TABLE " ++ dqS ++ table ++ dqS ++ " ADD " ++
        ("FOREIGN KEY (" ++ dqS ++ kf.1 ++ dqS ++ ") REFERENCES " ++ dqS ++
           jvalToString (rowGet kf.2.meta "foreignKey") ++ dqS ++ "(id)" ++
         (if truthy (rowGet kf.2.meta "onDelete") then
            " ON DELETE " ++ jvalToString (rowGet kf.2.meta "onDelete") else "") ++
         (if truthy (rowGet kf.2.meta "onUpdate") then
            " ON UPDATE " ++ jvalToString (rowGet kf.2.meta "onUpdate") else "") ++
         (if truthy (rowGet kf.2.meta "match") then
            " MATCH " ++ jvalToString (rowGet kf.2.meta "match") else "") ++
         (if truthy (rowGet kf.2.meta "deferrable") then
            " DEFERRABLE INITIALLY DEFERRED" else ""))]
     else [])

/-- The Postgres column-comment statements a single declared field
contributes (characterizes `buildColumns`' `commentSql` output field by
field). -/
def perFieldComment (driver : Driver) (table : String) (kf : String × Field) :
    List String :=
  if kf.2.type = "" then []
  else if truthy (rowGet kf.2.meta "comment") && driver = .postgres then
    ["COMMENT ON COLUMN " ++ dqS ++ table ++ dqS ++ "." ++ dqS ++ kf.1 ++ dqS ++
     " IS " ++ aposS ++ jvalToString (rowGet kf.2.meta "comment") ++ aposS]
  else []

/-- `tableExists`: one driver-specific introspection query; true iff it
returns any row. -/
def tableExistsM (driver : Driver) (exec : ExecFn) (table : String) :
    Bool × Trace :=
  let qp : String × List JVal :=
    match driver with
    | .sqlite =>
      ("SELECT name FROM sqlite_master WHERE type=" ++ aposS ++ "table" ++ aposS ++
       " AND name=" ++ aposS ++ table ++ aposS, [])
    | .postgres =>
      ("SELECT tablename FROM pg_catalog.pg_tables WHERE tablename=$1", [.str table])
    | .mysql =>
      ("SELECT table_name FROM information_schema.tables WHERE table_schema = DATABASE() AND table_name=?",
       [.str table])
  (!(exec qp.1 qp.2).isEmpty, [qp])

/-- `getExistingColumns`: introspect the live column names (lowercased;
`r.name || r.column_name`). -/
def getExistingColumnsM (driver : Driver) (exec : ExecFn) (table : String) :
    List String × Trace :=
  let q : String :=
    match driver with
    | .sqlite => "PRAGMA table_info(" ++ dqS ++ table ++ dqS ++ ")"
    | .postgres => "SELECT column_name FROM information_schema.columns WHERE table_name=$1"
    | .mysql => "SELECT column_name FROM information_schema.columns WHERE table_schema=DATABASE() AND table_name=?"
  let ps : List JVal := if driver = .sqlite then [] else [.str table]
  ((exec q ps).map (fun r =>
     jsToLower (jvalToString
       (if truthy (rowGet r "name") then rowGet r "name" else rowGet r "column_name"))),
   [(q, ps)])

/-- `getExistingIndexes`: live index names (lowercased;
`r.name || r.indexname`). -/
def getExistingIndexesM (driver : Driver) (exec : ExecFn) (table : String) :
    List String × Trace :=
  let q : String :=
    match driver with
    | .sqlite =>
      "SELECT name FROM sqlite_master WHERE type=" ++ aposS ++ "index" ++ aposS ++
      " AND tbl_name=" ++ aposS ++ table ++ aposS
    | .postgres => "SELECT indexname FROM pg_indexes WHERE tablename=$1"
    | .mysql => "SELECT index_name FROM information_schema.statistics WHERE table_schema=DATABASE() AND table_name=?"
  let ps : List JVal := if driver = .sqlite then [] else [.str table]
  ((exec q ps).map (fun r =>
     jsToLower (jvalToString
       (if truthy (rowGet r "name") then rowGet r "name" else rowGet r "indexname"))),
   [(q, ps)])

/-- `getExistingFKs`: live foreign-key constraint rows, each
JSON-stringified and lowercased. -/
def getExistingFKsM (driver : Driver) (exec : ExecFn) (table : String) :
    List String × Trace :=
  let q : String :=
    match driver with
    | .sqlite => "PRAGMA foreign_key_list(" ++ dqS ++ table ++ dqS ++ ")"
    | .postgres =>
      "SELECT constraint_name FROM information_schema.table_constraints WHERE table_name=$1 AND constraint_type=" ++
      aposS ++ "FOREIGN KEY" ++ aposS
    | .mysql =>
      "SELECT constraint_name FROM information_schema.table_constraints WHERE table_schema=DATABASE() AND table_name=? AND constraint_type=" ++
      aposS ++ "FOREIGN KEY" ++ aposS
  let ps : List JVal := if driver = .sqlite then [] else [.str table]
  ((exec q ps).map (fun r => jsToLower (jsonStringify (.obj r))), [(q, ps)])

/-- Pull the column name out of a column definition
(`/^"([^"]+)"/`). -/
def extractQuotedName (s : String) : Option String :=
  if s.data.head? = some dq then
    let inner := (s.data.drop 1).takeWhile (fun c => c ≠ dq)
    if inner ≠ [] && (s.data.drop (1 + inner.length)).head? = some dq then
      some (String.mk inner)
    else none
  else none

/-- Remove the first occurrence of `pat`, returning `none` if absent. -/
def splitFirst (pat : List Char) : List Char → Option (List Char × List Char)
  | [] => if pat.isEmpty then some ([], []) else none
  | c :: rest =>
    if pat.isPrefixOf (c :: rest) then some ([], (c :: rest).drop pat.length)
    else
      match splitFirst pat rest with
      | some pr => some (c :: pr.1, pr.2)
      | none => none

/-- `colDef.replace(/\s+PRIMARY KEY( AUTOINCREMENT|)/i, "")`: the
generated definitions use single spaces and upper case, so the first
occurrence of `" PRIMARY KEY AUTOINCREMENT"` (else `" PRIMARY KEY"`) is
removed. -/
def safeColDef (s : String) : String :=
  match splitFirst (" PRIMARY KEY AUTOINCREMENT").data s.data with
  | some pr => String.mk (pr.1 ++ pr.2)
  | none =>
    match splitFirst (" PRIMARY KEY").data s.data with
    | some pr => String.mk (pr.1 ++ pr.2)
    | none => s

/-- First `idx_…`/`unq_…` token of an index statement
(`/(?:idx_|unq_)[^\s]+/`), lowercased; `""` when absent. -/
def idxNameOf (s : String) : String :=
  jsToLower (String.mk (go s.data))
where
  go : List Char → List Char
    | [] => []
    | c :: rest =>
      if ("idx_".data).isPrefixOf (c :: rest) || ("unq_".data).isPrefixOf (c :: rest) then
        (c :: rest).takeWhile (fun ch => !isWS ch)
      else go rest

/-- A relation entry handed to `ensureTable`'s relations parameter. -/
structure RelArg where
  foreignKey : String
  targetModel : String
  kind : String
  meta : List (String × JVal) := []

/-- `ensureTable(table, schema, relations?)` — the second migrator
implementation: short-circuit on the process-wide set, introspect, build
columns, create or alter, create indexes, then add relation and
post-creation constraints (each DDL statement is individually
failure-tolerant in JS; the model's exec never fails).  `Promise.all`
over the relations array is modelled as sequential processing in list
order.  Returns the updated processed-tables set and the ordered trace
of issued statements. -/
def ensureTable (driver : Driver) (exec : ExecFn) (processed : List String)
    (table : String) (fields : List (String × Field))
    (relations : Option (List RelArg) := none) : List String × Trace :=
  let table := jsToLower table
  if processed.contains table then (processed, [])
  else
    let processed := processed ++ [table]
    let ex := tableExistsM driver exec table
    let tblExists := ex.1
    let b := buildColumns driver exec table tblExists fields
    let createAlter : Trace :=
      if !tblExists then
        [("CREATE TABLE IF NOT EXISTS " ++ dqS ++ table ++ dqS ++ " (\n" ++
          String.intercalate ",\n" (b.colsSql ++ b.inlineConstraints) ++ "\n);", [])]
      else
        let cols := getExistingColumnsM driver exec table
        cols.2 ++ b.colsSql.filterMap (fun colDef =>
          match extractQuotedName colDef with
          | none => none
          | some nm =>
            if cols.1.contains (jsToLower nm) then none
            else some ("ALTER TABLE " ++ dqS ++ table ++ dqS ++ " ADD COLUMN " ++
                       safeColDef colDef, []))
    let commentTr : Trace := b.commentSql.map (fun c => (c, []))
    let idxs := getExistingIndexesM driver exec table
    let idxTr : Trace := idxs.2 ++ b.indexSql.filterMap (fun idx =>
      let nm := idxNameOf idx
      if nm = "" || idxs.1.contains nm then none else some (idx, []))
    let relTr : Trace :=
      match relations with
      | some rels =>
        if rels.isEmpty then [] else
          let fks := getExistingFKsM driver exec table
          fks.2 ++ rels.foldl (fun acc rel =>
            let refTable := jsToLower rel.targetModel
            if rel.foreignKey = "" || refTable = "" then acc
            else
              let re := tableExistsM driver exec refTable
              if !re.1 then acc ++ re.2
              else
                let fkStatement :=
                  "ALTER TABLE " ++ dqS ++ table ++ dqS ++ " ADD FOREIGN KEY (" ++ dqS ++
                  rel.foreignKey ++ dqS ++ ") REFERENCES " ++ dqS ++ refTable ++ dqS ++ "(id)" ++
                  (if truthy (rowGet rel.meta "onDelete") then
                     " ON DELETE " ++ jvalToString (rowGet rel.meta "onDelete") else "") ++
                  (if truthy (rowGet rel.meta "onUpdate") then
                     " ON UPDATE " ++ jvalToString (rowGet rel.meta "onUpdate") else "") ++
                  (if truthy (rowGet rel.meta "match") then
                     " MATCH " ++ jvalToString (rowGet rel.meta "match") else "") ++
                  (if truthy (rowGet rel.meta "deferrable") then
                     " DEFERRABLE INITIALLY DEFERRED" else "")
                let uniqueStatement : Option String :=
                  if rel.kind = "onetoone" && driver ≠ .sqlite then
                    some ("ALTER TABLE " ++ dqS ++ table ++ dqS ++ " ADD CONSTRAINT unique_" ++
                          table ++ "_" ++ rel.foreignKey ++ " UNIQUE (" ++ dqS ++
                          rel.foreignKey ++ dqS ++ ")")
                  else none
                acc ++ re.2 ++
                  (if fks.1.contains (jsToLower fkStatement) then [] else [(fkStatement, [])]) ++
                  (match uniqueStatement with
                   | some u => if fks.1.contains (jsToLower u) then [] else [(u, [])]
                   | none => [])) []
      | none => []
    let fksNow := getExistingFKsM driver exec table
    let postTr : Trace := fksNow.2 ++ b.postConstraints.filterMap (fun fk =>
      if fksNow.1.contains (jsToLower fk) then none else some (fk, []))
    (processed, ex.2 ++ b.trace ++ createAlter ++ commentTr ++ idxTr ++ relTr ++ postTr)

/-- `ensureTimestamps(fields)`: synthesize `createdAt`, `updatedAt` and
`deletedAt` (in that order) when the declared fields omit them. -/
def ensureTimestamps (fields : List (String × Field)) : List (String × Field) :=
  let add := fun (fs : List (String × Field)) (key : String) (d : Field) =>
    if fs.any (fun p => p.1 == key) then fs else fs ++ [(key, d)]
  let f1 := add fields "createdAt"
    ⟨"Date", [("default", .str "CURRENT_TIMESTAMP"), ("index", .bool true)]⟩
  let f2 := add f1 "updatedAt"
    ⟨"Date", [("default", .str "CURRENT_TIMESTAMP"), ("index", .bool true)]⟩
  add f2 "deletedAt" ⟨"Date", [("default", .null), ("index", .bool true)]⟩

/-- `applyDefaults(table, schema)`: one backfill statement per field
with a (JS-truthy) default, in declaration order; the `def === null`
re-check is dead code after the truthiness guard but kept. -/
def applyDefaults (driver : Driver) (table : String) :
    List (String × Field) → Trace
  | [] => []
  | kf :: rest =>
    let defv := rowGet kf.2.meta "default"
    (if !truthy defv then []
     else if (match defv with | .null => true | _ => false) then []
     else
       let value :=
         if jeq defv (.str "CURRENT_TIMESTAMP") then
           if driver = .sqlite then
             "strftime(" ++ aposS ++ "%s" ++ aposS ++ "," ++ aposS ++ "now" ++ aposS ++ ")"
           else "CURRENT_TIMESTAMP"
         else
           match defv with
           | .bool b => if b then "1" else "0"
           | .str s => aposS ++ s ++ aposS
           | other => jvalToString other
       [("UPDATE " ++ dqS ++ table ++ dqS ++ " SET " ++ dqS ++ kf.1 ++ dqS ++
         " = " ++ value ++ " WHERE " ++ dqS ++ kf.1 ++ dqS ++ " IS NULL", [])]) ++
    applyDefaults driver table rest

/-- A migrator-facing model entry (`{table?, fields}`; relations are not
forwarded by `migrateSchema`). -/
structure MigModel where
  table : String := ""
  fields : List (String × Field) := []

/-- `migrateSchema(schema)`: per model — default the table name, inject
timestamp fields, ensure the table, backfill defaults.  Returns the
mutated schema, the processed-tables set and the full trace. -/
def migrateSchema (driver : Driver) (exec : ExecFn) (processed : List String)
    (schema : List (String × MigModel)) :
    List (String × MigModel) × List String × Trace :=
  schema.foldl
    (fun st nm =>
      let tbl := if nm.2.table = "" then jsToLower nm.1 else nm.2.table
      let flds := ensureTimestamps nm.2.fields
      let et := ensureTable driver exec st.2.1 tbl flds
      let dt := applyDefaults driver tbl flds
      (st.1 ++ [(nm.1, { table := tbl, fields := flds })], et.1, st.2.2 ++ et.2 ++ dt))
    ([], processed, [])

-- ---------------------------------------------------------------------
-- Spec-shaped helper definitions and concrete scenarios
-- ---------------------------------------------------------------------

/-- Does some schema field with this key declare a boolean-containing
type?  (Pointwise characterization target for `mapBooleans`.) -/
def isBoolKeyIn (fields : List (String × Field)) (k : String) : Bool :=
  fields.any (fun kf => sIncludes (jsToLower kf.2.type) "boolean" && kf.1 == k)

/-- Spec-shaped per-field backfill: the spec prescribes one
`UPDATE <table> SET <col> = <default> WHERE <col> IS NULL` per backfilled
field; the code only backfills JS-truthy defaults, which this
characterization makes explicit for comparison. -/
def backfillSpec (driver : Driver) (table : String) (kf : String × Field) :
    Option (String × List JVal) :=
  let defv := rowGet kf.2.meta "default"
  if truthy defv then
    let value :=
      if jeq defv (.str "CURRENT_TIMESTAMP") then
        if driver = .sqlite then
          "strftime(" ++ aposS ++ "%s" ++ aposS ++ "," ++ aposS ++ "now" ++ aposS ++ ")"
        else "CURRENT_TIMESTAMP"
      else
        match defv with
        | .bool b => if b then "1" else "0"
        | .str s => aposS ++ s ++ aposS
        | other => jvalToString other
    some ("UPDATE " ++ dqS ++ table ++ dqS ++ " SET " ++ dqS ++ kf.1 ++ dqS ++
          " = " ++ value ++ " WHERE " ++ dqS ++ kf.1 ++ dqS ++ " IS NULL", [])
  else none

/-- Is a statement schema-changing DDL (CREATE/ALTER-prefixed), as
opposed to an introspection query? -/
def isDDL (s : String) : Bool :=
  jsStartsWith s "CREATE" || jsStartsWith s "ALTER"


/-- Does a statement create a table, create an index, or add a column to
`table`?  These are the three statement families whose re-issue the
second `ensureTable` call must suppress. -/
def isCreateAddIdx (table : String) (s : String) : Bool :=
  jsStartsWith s "CREATE TABLE" || jsStartsWith s "CREATE INDEX" ||
  jsStartsWith s ("ALTER TABLE " ++ dqS ++ table ++ dqS ++ " ADD COLUMN")

/-- The sqlite dialect adapter (total accessor for statements). -/
def sqliteD : DialectAdapter :=
  (Dialects "sqlite").getD
    ⟨fun _ => "", fun _ _ => "", fun _ => ""⟩

/-- Scenario (cyclic relation graph): a self-referential `User.manager`
many-to-one relation back to `User` — the relation graph `User → User`
contains a cycle. -/
def userMgrSchema : List (String × ModelSchema) :=
  [("User", { table := "users", primaryKey := some "id",
              fields := [("id", ⟨"number", [("auto", .bool true)]⟩),
                         ("managerId", ⟨"number", []⟩),
                         ("manager", ⟨"User", [("relationship manytoone", .str "User"),
                                               ("foreignKey", .str "managerId")]⟩)] })]

/-- Database for the cyclic scenario: user 1's manager is user 2, whose
manager is user 3. -/
def execMgr : ExecFn := fun _ ps =>
  match ps with
  | [.num 2] => [[("id", .num 2), ("managerId", .num 3)]]
  | [.num 3] => [[("id", .num 3), ("managerId", .null)]]
  | _ => []

/-- Builder context for the cyclic scenario. -/
def envMgr : PreEnv :=
  { schema := userMgrSchema, modelName := "User", ormDialect := none, exec := execMgr }

/-- The parent batch for the cyclic scenario. -/
def mgrRows : List Row := [[("id", .num 1), ("managerId", .num 2)]]

/-- Scenario: a many-to-many `A.tags` relation through `atag`. -/
def mmSchema : List (String × ModelSchema) :=
  [("A", { table := "as", primaryKey := some "id",
           fields := [("id", ⟨"number", []⟩),
                      ("tags", ⟨"Tag", [("relationship manytomany", .str "Tag"),
                                        ("foreignKey", .str "aId"),
                                        ("relatedKey", .str "tagId"),
                                        ("through", .str "atag")]⟩)] }),
   ("Tag", { table := "tags", primaryKey := some "id", fields := [("id", ⟨"number", []⟩)] })]

/-- Builder context for the many-to-many scenario (empty database). -/
def envMM : PreEnv :=
  { schema := mmSchema, modelName := "A", ormDialect := none, exec := fun _ _ => [] }

/-- Scenario: `User.posts` one-to-many into `Post.userId`. -/
def upSchema : List (String × ModelSchema) :=
  [("User", { table := "users", primaryKey := some "id",
              fields := [("id", ⟨"number", []⟩),
                         ("posts", ⟨"Post", [("relationship onetomany", .str "Post"),
                                             ("foreignKey", .str "userId")]⟩)] }),
   ("Post", { table := "posts", primaryKey := some "id",
              fields := [("id", ⟨"number", []⟩), ("userId", ⟨"number", []⟩)] })]

/-- Database for the one-to-many scenario: it holds a post for user 1
and also a post for user 0; an IN-list query whose parameters are
exactly `[1]` returns only user 1's post, while any query whose
parameters included 0 would also return user 0's post. -/
def execUP : ExecFn := fun _ ps =>
  match ps with
  | [.num 1] => [[("id", .num 11), ("userId", .num 1)]]
  | _ => [[("id", .num 10), ("userId", .num 0)], [("id", .num 11), ("userId", .num 1)]]

/-- Builder context for the one-to-many scenario. -/
def envUP : PreEnv :=
  { schema := upSchema, modelName := "User", ormDialect := none, exec := execUP }

/-- Migration scenario fields: auto PK, an indexed column and a
foreign-key column. -/
def fieldsT : List (String × Field) :=
  [("id", ⟨"number", [("auto", .bool true)]⟩),
   ("name", ⟨"string", [("index", .bool true)]⟩),
   ("refid", ⟨"number", [("foreignKey", .str "ref")]⟩)]

/-- A fresh database: every query returns no rows. -/
def exec1 : ExecFn := fun _ _ => []

/-- The database as it stands after the first `ensureTable` call on
table `t`: the table, its three columns, its index and its foreign key
all exist and are reported by the introspection queries. -/
def exec2 : ExecFn := fun q _ =>
  if q = "SELECT name FROM sqlite_master WHERE type=" ++ aposS ++ "table" ++ aposS ++
         " AND name=" ++ aposS ++ "t" ++ aposS then [[("name", .str "t")]]
  else if q = "PRAGMA table_info(" ++ dqS ++ "t" ++ dqS ++ ")" then
    [[("name", .str "id")], [("name", .str "name")], [("name", .str "refid")]]
  else if q = "SELECT name FROM sqlite_master WHERE type=" ++ aposS ++ "index" ++ aposS ++
              " AND tbl_name=" ++ aposS ++ "t" ++ aposS then [[("name", .str "idx_t_name")]]
  else if q = "PRAGMA foreign_key_list(" ++ dqS ++ "t" ++ dqS ++ ")" then
    [[("id", .num 0), ("seq", .num 0), ("table", .str "ref"), ("from", .str "refid"), ("to", .str "id")]]
  else []

/-- The foreign-key ALTER statement generated for `fieldsT`. -/
def fkAlterT : String :=
  "ALTER TABLE \x22t\x22 ADD FOREIGN KEY (\x22refid\x22) REFERENCES \x22ref\x22(id)"

/-- A single boolean-typed schema field named `f`. -/
def boolF : List (String × Field) := [("f", ⟨"boolean", []⟩)]

/-- Migration scenario fields carrying a unique column as well: an auto
primary key, an indexed column, a unique column and a foreign-key
column. -/
def fieldsU : List (String × Field) :=
  [("id", ⟨"number", [("auto", .bool true)]⟩),
   ("name", ⟨"string", [("index", .bool true)]⟩),
   ("email", ⟨"string", [("unique", .bool true)]⟩),
   ("refid", ⟨"number", [("foreignKey", .str "ref")]⟩)]

/-- The database as it stands after a first `ensureTable` call on table
`t` with `fieldsU`: the table, its four columns, its index and its
foreign key all exist and are reported by the introspection queries. -/
def execU : ExecFn := fun q _ =>
  if q = "SELECT name FROM sqlite_master WHERE type=" ++ aposS ++ "table" ++ aposS ++
         " AND name=" ++ aposS ++ "t" ++ aposS then [[("name", .str "t")]]
  else if q = "PRAGMA table_info(" ++ dqS ++ "t" ++ dqS ++ ")" then
    [[("name", .str "id")], [("name", .str "name")], [("name", .str "email")],
     [("name", .str "refid")]]
  else if q = "SELECT name FROM sqlite_master WHERE type=" ++ aposS ++ "index" ++ aposS ++
              " AND tbl_name=" ++ aposS ++ "t" ++ aposS then [[("name", .str "idx_t_name")]]
  else if q = "PRAGMA foreign_key_list(" ++ dqS ++ "t" ++ dqS ++ ")" then
    [[("id", .num 0), ("seq", .num 0), ("table", .str "ref"), ("from", .str "refid"),
      ("to", .str "id")]]
  else []

-- ---------------------------------------------------------------------
-- Theorems
-- ---------------------------------------------------------------------

/-- C1 (counterexample): on the cyclic relation graph `User.manager →
User` with the nested preload path `"manager.manager"`, resolving the
batch issues two SQL queries — one per visit to the `(User, manager)`
pair — so the second visit to the same `(model, relationField)` pair
does issue an additional query (there is no visited-set). -/
theorem preload_cycle_counterexample :
    applyPreloads envMgr ["manager.manager"] [] mgrRows =
      some ([[("id", .num 1), ("managerId", .num 2),
              ("manager", .obj [("id", .num 2), ("managerId", .num 3),
                                ("manager", .obj [("id", .num 3), ("managerId", .null)])])]],
            [(sqlSinglePK sqliteD "users" "id" "?", [.num 2]),
             (sqlSinglePK sqliteD "users" "id" "?", [.num 3])]) := rfl

/-- C2 (counterexample): for a many-to-many relation whose parent batch
has no usable keys (one parent whose primary key is `0`), every parent's
relation field is set to `null` — not to the multi-valued empty value
`[]` — and no query is issued. -/
theorem preload_empty_keys_counterexample :
    applyPreloads envMM ["tags"] [] [[("id", .num 0)]] =
      some ([[("id", .num 0), ("tags", .null)]], []) := rfl

/-- C3 (counterexample): calling `ensureTable` a second time with the
identical field declarations (process-wide short-circuit discounted, the
live metadata reflecting the first call) re-issues the foreign-key
`ALTER TABLE` statement: the second call's CREATE/ALTER statements are
not empty. -/
theorem ensureTable_rerun_counterexample :
    ((ensureTable .sqlite exec2 [] "t" fieldsT).2.map Prod.fst).filter isDDL =
      [fkAlterT] := rfl

/-- `buildColumns` is the fold of `colStep` from the empty
accumulator. -/
theorem buildColumns_eq_colStep (driver : Driver) (exec : ExecFn) (table : String)
    (tblExists : Bool) (fields : List (String × Field)) :
    buildColumns driver exec table tblExists fields =
      fields.foldl (colStep driver exec table tblExists) {} := rfl

set_option maxRecDepth 8192 in
/-- On an existing table, one `colStep` appends exactly the field's
unique/foreign-key constraint ALTERs to `postConstraints`. -/
theorem colStep_post (driver : Driver) (exec : ExecFn) (table : String)
    (st : ColsOut) (kf : String × Field) :
    (colStep driver exec table true st kf).postConstraints =
      st.postConstraints ++ perFieldPost table kf := by
  by_cases h0 : kf.2.type = ""
  · simp [colStep, perFieldPost, h0]
  · by_cases hu : truthy (rowGet kf.2.meta "unique") = true <;>
    by_cases hf : truthy (rowGet kf.2.meta "foreignKey") = true <;>
    simp [colStep, perFieldPost, h0, hu, hf, apply_ite ColsOut.postConstraints]

set_option maxRecDepth 8192 in
/-- One `colStep` appends exactly the field's Postgres comment
statements to `commentSql`. -/
theorem colStep_comment (driver : Driver) (exec : ExecFn) (table : String)
    (st : ColsOut) (kf : String × Field) :
    (colStep driver exec table true st kf).commentSql =
      st.commentSql ++ perFieldComment driver table kf := by
  by_cases h0 : kf.2.type = ""
  · simp [colStep, perFieldComment, h0]
  · by_cases hc : ((truthy (rowGet kf.2.meta "comment") && driver = .postgres)) = true <;>
    simp [colStep, perFieldComment, h0, hc, apply_ite ColsOut.commentSql]

/-- A fold whose step appends `f x` to a projected list component folds
to the flat map of `f`. -/
theorem foldl_proj_append {σ α β : Type} (g : σ → α → σ) (proj : σ → List β)
    (f : α → List β)
    (hstep : ∀ st x, proj (g st x) = proj st ++ f x) :
    ∀ (l : List α) (st : σ), proj (l.foldl g st) = proj st ++ l.flatMap f := by
  intro l
  induction l with
  | nil => intro st; simp
  | cons x xs ih =>
    intro st
    rw [List.foldl_cons, ih, hstep]
    simp [List.append_assoc]

/-- `buildColumns` on an existing table accumulates exactly one
unique-constraint ALTER per unique field and one foreign-key ALTER per
foreign-key field, in declaration order. -/
theorem buildColumns_post (driver : Driver) (exec : ExecFn) (table : String)
    (fields : List (String × Field)) :
    (buildColumns driver exec table true fields).postConstraints =
      fields.flatMap (perFieldPost table) := by
  rw [buildColumns_eq_colStep]
  have h := foldl_proj_append (colStep driver exec table true) ColsOut.postConstraints
    (perFieldPost table) (colStep_post driver exec table) fields {}
  simpa using h

/-- `buildColumns` accumulates exactly the per-field Postgres comment
statements, in declaration order. -/
theorem buildColumns_comment (driver : Driver) (exec : ExecFn) (table : String)
    (fields : List (String × Field)) :
    (buildColumns driver exec table true fields).commentSql =
      fields.flatMap (perFieldComment driver table) := by
  rw [buildColumns_eq_colStep]
  have h := foldl_proj_append (colStep driver exec table true) ColsOut.commentSql
    (perFieldComment driver table) (colStep_comment driver exec table) fields {}
  simpa using h

/-- String append concatenates the character data. -/
theorem strData_append (s t : String) : (s ++ t).data = s.data ++ t.data := rfl

/-- Prefix testing cancels a shared leading segment. -/
theorem isPrefixOf_append_cancel (a : List Char) : ∀ b c : List Char,
    List.isPrefixOf (a ++ b) (a ++ c) = List.isPrefixOf b c := by
  induction a with
  | nil => intro b c; rfl
  | cons x xs ih =>
    intro b c
    show (x == x && List.isPrefixOf (xs ++ b) (xs ++ c)) = List.isPrefixOf b c
    rw [beq_self_eq_true, Bool.true_and, ih]

/-- A `filterMap` every element of which is screened out is empty. -/
theorem filterMap_nil_all {α β : Type} (f : α → Option β) (p : α → Bool)
    (hfp : ∀ x, p x = true → f x = none) :
    ∀ l : List α, l.all p = true → l.filterMap f = [] := by
  intro l
  induction l with
  | nil => intro _; rfl
  | cons x xs ih =>
    intro h
    rw [List.all_cons, Bool.and_eq_true] at h
    rw [List.filterMap_cons, hfp x h.1]
    exact ih h.2

/-- A `filterMap` every element of which is kept is a map. -/
theorem filterMap_some_map {α β : Type} (f : α → Option β) (g : α → β) :
    ∀ l : List α, (∀ x ∈ l, f x = some (g x)) → l.filterMap f = l.map g := by
  intro l
  induction l with
  | nil => intro _; rfl
  | cons x xs ih =>
    intro h
    rw [List.filterMap_cons, h x (List.mem_cons_self x xs), List.map_cons]
    exact congrArg _ (ih (fun y hy => h y (List.mem_cons_of_mem x hy)))

/-- A filter none of whose elements passes is empty. -/
theorem filter_nil_of_mem {α : Type} (p : α → Bool) :
    ∀ l : List α, (∀ x ∈ l, p x = false) → l.filter p = [] := by
  intro l
  induction l with
  | nil => intro _; rfl
  | cons x xs ih =>
    intro h
    rw [List.filter_cons, h x (List.mem_cons_self x xs)]
    exact ih fun y hy => h y (List.mem_cons_of_mem x hy)

/-- Mapping `Prod.fst` over pairing with the empty parameter list gives
back the statements. -/
theorem map_fst_pair (l : List String) :
    (l.map (fun c => (c, ([] : List JVal)))).map Prod.fst = l := by
  induction l with
  | nil => rfl
  | cons x xs ih => simp [ih]

/-- `jsonStringify` of an object always opens with a brace. -/
theorem jsonStringify_obj_head (kvs : List (String × JVal)) :
    (jsonStringify (.obj kvs)).data.head? = some (Char.ofNat 123) := rfl

/-- `jsToLower` sends a leading capital A to a lowercase a. -/
theorem jsToLower_head_A (s : String) (h : s.data.head? = some 'A') :
    (jsToLower s).data.head? = some 'a' := by
  show ((s.data.map Char.toLower)).head? = some 'a'
  rw [List.head?_map, h]
  rfl

/-- `jsToLower` keeps a leading brace. -/
theorem jsToLower_head_brace (s : String)
    (h : s.data.head? = some (Char.ofNat 123)) :
    (jsToLower s).data.head? = some (Char.ofNat 123) := by
  show ((s.data.map Char.toLower)).head? = some (Char.ofNat 123)
  rw [List.head?_map, h]
  rfl

/-- A string opening with a lowercase a is never among the lowercased
JSON-stringified constraint-metadata rows. -/
theorem fks_contains_alter_false (x : String) (hx : x.data.head? = some 'a') :
    ∀ rows : List Row,
      (rows.map (fun r => jsToLower (jsonStringify (.obj r)))).contains x = false := by
  intro rows
  induction rows with
  | nil => rfl
  | cons r rs ih =>
    rw [List.map_cons, List.contains_cons]
    have hne : (x == jsToLower (jsonStringify (.obj r))) = false := by
      apply beq_eq_false_iff_ne.mpr
      intro he
      have hh := jsToLower_head_brace (jsonStringify (.obj r)) (jsonStringify_obj_head r)
      rw [← he, hx] at hh
      exact absurd (Option.some.inj hh) (by decide)
    rw [hne, Bool.false_or]
    exact ih

/-- An `ALTER …` statement (capital A first) is never reported by
`getExistingFKs`, whose entries are JSON-stringified rows opening with a
brace. -/
theorem getFKs_not_contains_alter (driver : Driver) (exec : ExecFn) (t x : String)
    (hx : x.data.head? = some 'A') :
    (getExistingFKsM driver exec t).1.contains (jsToLower x) = false := by
  have hlow : (jsToLower x).data.head? = some 'a' := jsToLower_head_A x hx
  cases driver <;> exact fks_contains_alter_false (jsToLower x) hlow _

/-- Every statement `perFieldPost` emits opens with a capital A. -/
theorem perFieldPost_head (t : String) (kf : String × Field) :
    ∀ s ∈ perFieldPost t kf, s.data.head? = some 'A' := by
  intro s hs
  unfold perFieldPost at hs
  split at hs
  · exact absurd hs (List.not_mem_nil s)
  · rcases List.mem_append.mp hs with h | h
    · split at h
      · rw [List.mem_singleton] at h; subst h; rfl
      · exact absurd h (List.not_mem_nil s)
    · split at h
      · rw [List.mem_singleton] at h; subst h; rfl
      · exact absurd h (List.not_mem_nil s)

/-- No constraint ALTER `perFieldPost` emits is a CREATE TABLE, CREATE
INDEX or ADD COLUMN statement. -/
theorem perFieldPost_no_ca (t : String) (kf : String × Field) :
    ∀ s ∈ perFieldPost t kf, isCreateAddIdx t s = false := by
  intro s hs
  unfold perFieldPost at hs
  split at hs
  · exact absurd hs (List.not_mem_nil s)
  · rcases List.mem_append.mp hs with h | h
    · split at h
      · rw [List.mem_singleton] at h
        subst h
        simp only [isCreateAddIdx, jsStartsWith, strData_append, List.append_assoc,
          isPrefixOf_append_cancel]
        rfl
      · exact absurd h (List.not_mem_nil s)
    · split at h
      · rw [List.mem_singleton] at h
        subst h
        simp only [isCreateAddIdx, jsStartsWith, strData_append, List.append_assoc,
          isPrefixOf_append_cancel]
        rfl
      · exact absurd h (List.not_mem_nil s)

/-- No Postgres comment statement is a CREATE TABLE, CREATE INDEX or ADD
COLUMN statement. -/
theorem perFieldComment_no_ca (driver : Driver) (t : String) (kf : String × Field) :
    ∀ s ∈ perFieldComment driver t kf, isCreateAddIdx t s = false := by
  intro s hs
  unfold perFieldComment at hs
  split at hs
  · exact absurd hs (List.not_mem_nil s)
  · split at hs
    · rw [List.mem_singleton] at hs; subst hs; rfl
    · exact absurd hs (List.not_mem_nil s)

/-- The table-existence introspection query is never a CREATE/ADD
COLUMN/index statement. -/
theorem tableExists_no_ca (driver : Driver) (exec : ExecFn) (t : String) :
    ((tableExistsM driver exec t).2.map Prod.fst).filter (isCreateAddIdx t) = [] := by
  cases driver <;> rfl

/-- The live-columns introspection query is never a CREATE/ADD
COLUMN/index statement. -/
theorem cols_no_ca (driver : Driver) (exec : ExecFn) (t : String) :
    ((getExistingColumnsM driver exec t).2.map Prod.fst).filter (isCreateAddIdx t) = [] := by
  cases driver <;> rfl

/-- The live-indexes introspection query is never a CREATE/ADD
COLUMN/index statement. -/
theorem idxs_no_ca (driver : Driver) (exec : ExecFn) (t : String) :
    ((getExistingIndexesM driver exec t).2.map Prod.fst).filter (isCreateAddIdx t) = [] := by
  cases driver <;> rfl

/-- The live-constraints introspection query is never a CREATE/ADD
COLUMN/index statement. -/
theorem fks_no_ca (driver : Driver) (exec : ExecFn) (t : String) :
    ((getExistingFKsM driver exec t).2.map Prod.fst).filter (isCreateAddIdx t) = [] := by
  cases driver <;> rfl

/-- C3 (amended): re-running `ensureTable` on an already-ensured table —
for every driver, table name, field list and database whose introspected
state reflects the first call (the table exists, every generated column
name is among the live column names, every generated index name is among
the live index names) and whose column loop issues no enum-type
statements — issues exactly the four introspection queries, the Postgres
column comments, and one re-issued `ALTER TABLE` constraint statement
per unique field and per foreign-key field, in declaration order: the
column and index diffs suppress every CREATE TABLE, ADD COLUMN and
CREATE INDEX statement, but every unique/foreign-key constraint is
re-issued, because the constraint diff compares the ALTER statement text
against JSON-stringified constraint-metadata rows, which never match. -/
theorem ensureTable_rerun_amended (driver : Driver) (exec : ExecFn)
    (table : String) (fields : List (String × Field))
    (h1 : (tableExistsM driver exec (jsToLower table)).1 = true)
    (h2 : (buildColumns driver exec (jsToLower table) true fields).colsSql.all
        (fun colDef =>
          match extractQuotedName colDef with
          | some nm =>
            (getExistingColumnsM driver exec (jsToLower table)).1.contains (jsToLower nm)
          | none => true) = true)
    (h3 : (buildColumns driver exec (jsToLower table) true fields).indexSql.all
        (fun idx => decide (idxNameOf idx = "") ||
          (getExistingIndexesM driver exec (jsToLower table)).1.contains (idxNameOf idx)) = true)
    (h4 : (buildColumns driver exec (jsToLower table) true fields).trace.isEmpty = true) :
    (ensureTable driver exec [] table fields).2 =
      (tableExistsM driver exec (jsToLower table)).2 ++
      (getExistingColumnsM driver exec (jsToLower table)).2 ++
      (buildColumns driver exec (jsToLower table) true fields).commentSql.map
        (fun c => (c, ([] : List JVal))) ++
      (getExistingIndexesM driver exec (jsToLower table)).2 ++
      (getExistingFKsM driver exec (jsToLower table)).2 ++
      (fields.flatMap (perFieldPost (jsToLower table))).map (fun c => (c, ([] : List JVal)))
    ∧ (buildColumns driver exec (jsToLower table) true fields).postConstraints =
        fields.flatMap (perFieldPost (jsToLower table))
    ∧ ((ensureTable driver exec [] table fields).2.map Prod.fst).filter
        (isCreateAddIdx (jsToLower table)) = [] := by
  have hpost := buildColumns_post driver exec (jsToLower table) fields
  have hcom := buildColumns_comment driver exec (jsToLower table) fields
  have htr : (buildColumns driver exec (jsToLower table) true fields).trace = [] := by
    rwa [List.isEmpty_iff] at h4
  have hca : (buildColumns driver exec (jsToLower table) true fields).colsSql.filterMap
      (fun colDef =>
        match extractQuotedName colDef with
        | none => none
        | some nm =>
          if (getExistingColumnsM driver exec (jsToLower table)).1.contains (jsToLower nm)
          then none
          else some ("ALTER TABLE " ++ dqS ++ jsToLower table ++ dqS ++ " ADD COLUMN " ++
                     safeColDef colDef, ([] : List JVal))) = [] := by
    refine filterMap_nil_all _ _ ?_ _ h2
    intro x
    cases hq : extractQuotedName x with
    | none => intro _; simp [hq]
    | some nm =>
      intro hx
      simp only [hq] at hx ⊢
      rw [if_pos hx]
  have hidx : (buildColumns driver exec (jsToLower table) true fields).indexSql.filterMap
      (fun idx =>
        if idxNameOf idx = "" ||
           (getExistingIndexesM driver exec (jsToLower table)).1.contains (idxNameOf idx)
        then none else some (idx, ([] : List JVal))) = [] := by
    refine filterMap_nil_all _ _ ?_ _ h3
    intro x hx
    rw [if_pos hx]
  have hkeep : (buildColumns driver exec
        (jsToLower table) true fields).postConstraints.filterMap
      (fun fk =>
        if (getExistingFKsM driver exec (jsToLower table)).1.contains (jsToLower fk)
        then none else some (fk, ([] : List JVal))) =
      (fields.flatMap (perFieldPost (jsToLower table))).map
        (fun c => (c, ([] : List JVal))) := by
    rw [hpost]
    refine filterMap_some_map _ _ _ ?_
    intro fk hfk
    have hh : fk.data.head? = some 'A' := by
      rcases List.mem_flatMap.mp hfk with ⟨kf, _, hmem⟩
      exact perFieldPost_head (jsToLower table) kf fk hmem
    have hc := getFKs_not_contains_alter driver exec (jsToLower table) fk hh
    rw [if_neg (by rw [hc]; exact Bool.false_ne_true)]
  have hnc : ¬(([] : List String).contains (jsToLower table) = true) :=
    fun hcon => Bool.noConfusion hcon
  have hfb : ¬((false : Bool) = true) := fun hcon => Bool.noConfusion hcon
  have hA : (ensureTable driver exec [] table fields).2 =
      (tableExistsM driver exec (jsToLower table)).2 ++
      (getExistingColumnsM driver exec (jsToLower table)).2 ++
      (buildColumns driver exec (jsToLower table) true fields).commentSql.map
        (fun c => (c, ([] : List JVal))) ++
      (getExistingIndexesM driver exec (jsToLower table)).2 ++
      (getExistingFKsM driver exec (jsToLower table)).2 ++
      (fields.flatMap (perFieldPost (jsToLower table))).map
        (fun c => (c, ([] : List JVal))) := by
    simp only [ensureTable]
    rw [if_neg hnc]
    rw [h1]
    simp only [Bool.not_true]
    rw [if_neg hfb]
    rw [htr, hca, hidx, hkeep]
    simp [List.append_assoc]
  have hfc : (fields.flatMap (perFieldComment driver (jsToLower table))).filter
      (isCreateAddIdx (jsToLower table)) = [] :=
    filter_nil_of_mem _ _ (fun s hs => by
      rcases List.mem_flatMap.mp hs with ⟨kf, _, hmem⟩
      exact perFieldComment_no_ca driver (jsToLower table) kf s hmem)
  have hfp2 : (fields.flatMap (perFieldPost (jsToLower table))).filter
      (isCreateAddIdx (jsToLower table)) = [] :=
    filter_nil_of_mem _ _ (fun s hs => by
      rcases List.mem_flatMap.mp hs with ⟨kf, _, hmem⟩
      exact perFieldPost_no_ca (jsToLower table) kf s hmem)
  refine ⟨hA, hpost, ?_⟩
  rw [hA]
  simp only [List.map_append, List.filter_append, map_fst_pair, hcom,
    tableExists_no_ca, cols_no_ca, idxs_no_ca, fks_no_ca, hfc, hfp2,
    List.append_nil, List.nil_append]


/-- C3 (witness): the re-run theorem applied to the concrete sqlite
scenario `fieldsU` — an auto primary key, an indexed column, a unique
column and a foreign-key column — against the introspection state the
first call leaves behind (`execU`); all four hypotheses hold by
computation. -/
theorem ensureTable_rerun_witness :
    ((ensureTable .sqlite execU [] "t" fieldsU).2 =
      (tableExistsM .sqlite execU (jsToLower "t")).2 ++
      (getExistingColumnsM .sqlite execU (jsToLower "t")).2 ++
      (buildColumns .sqlite execU (jsToLower "t") true fieldsU).commentSql.map
        (fun c => (c, ([] : List JVal))) ++
      (getExistingIndexesM .sqlite execU (jsToLower "t")).2 ++
      (getExistingFKsM .sqlite execU (jsToLower "t")).2 ++
      (fieldsU.flatMap (perFieldPost (jsToLower "t"))).map (fun c => (c, ([] : List JVal)))
    ∧ (buildColumns .sqlite execU (jsToLower "t") true fieldsU).postConstraints =
        fieldsU.flatMap (perFieldPost (jsToLower "t"))
    ∧ ((ensureTable .sqlite execU [] "t" fieldsU).2.map Prod.fst).filter
        (isCreateAddIdx (jsToLower "t")) = [])
    ∧ fieldsU.flatMap (perFieldPost (jsToLower "t")) =
        ["ALTER TABLE \x22t\x22 ADD CONSTRAINT unq_t_email UNIQUE (\x22email\x22)",
         fkAlterT]
    ∧ ((ensureTable .sqlite execU [] "t" fieldsU).2.map Prod.fst).filter isDDL =
        ["ALTER TABLE \x22t\x22 ADD CONSTRAINT unq_t_email UNIQUE (\x22email\x22)",
         fkAlterT] :=
  ⟨ensureTable_rerun_amended .sqlite execU "t" fieldsU rfl rfl rfl rfl, rfl, rfl⟩

/-- C4 (counterexample): with the unrecognized engine name `"oracle"`
the `Dialects` lookup yields no adapter and `buildSql` fails rather than
falling back to the `?`/double-quote dialect. -/
theorem dialect_unrecognized_counterexample :
    buildSql { table := "users", modelName := "User", ormDialect := some "oracle" } =
      .error "TypeError: Dialects lookup returned undefined" := rfl

/-- C8 (counterexample): a field whose meta carries the non-null default
`false` gets no backfill `UPDATE` at all (the guard tests JS truthiness,
not non-nullness). -/
theorem backfill_false_default_counterexample :
    applyDefaults .sqlite "t" [("active", ⟨"boolean", [("default", .bool false)]⟩)] =
      [] := rfl

/-- C9: `ensureTimestamps` synthesizes `createdAt`/`updatedAt` (indexed,
defaulting to the current timestamp) and `deletedAt` (indexed, default
null) — but `deletedAt`'s meta is not marked nullable, so the generated
column definition carries `NOT NULL` (alongside `DEFAULT null`), where
the spec requires the soft-delete column to permit NULL. -/
theorem timestamps_deletedAt_not_null :
    ensureTimestamps [] =
      [("createdAt", ⟨"Date", [("default", .str "CURRENT_TIMESTAMP"), ("index", .bool true)]⟩),
       ("updatedAt", ⟨"Date", [("default", .str "CURRENT_TIMESTAMP"), ("index", .bool true)]⟩),
       ("deletedAt", ⟨"Date", [("default", .null), ("index", .bool true)]⟩)]
    ∧ (buildColumns .sqlite exec1 "users" false (ensureTimestamps [])).colsSql =
      ["\x22createdAt\x22 INTEGER NOT NULL DEFAULT (datetime(\x27now\x27))",
       "\x22updatedAt\x22 INTEGER NOT NULL DEFAULT (datetime(\x27now\x27))",
       "\x22deletedAt\x22 INTEGER NOT NULL DEFAULT null"]
    ∧ (buildColumns .sqlite exec1 "users" false (ensureTimestamps [])).indexSql =
      ["CREATE INDEX IF NOT EXISTS idx_users_createdAt ON \x22users\x22(\x22createdAt\x22)",
       "CREATE INDEX IF NOT EXISTS idx_users_updatedAt ON \x22users\x22(\x22updatedAt\x22)",
       "CREATE INDEX IF NOT EXISTS idx_users_deletedAt ON \x22users\x22(\x22deletedAt\x22)"]
    ∧ sIncludes "\x22deletedAt\x22 INTEGER NOT NULL DEFAULT null" "NOT NULL" = true :=
  ⟨rfl, rfl, rfl, rfl⟩

/-- C8 (amended): the backfill runs exactly one
`UPDATE <table> SET <col> = <default> WHERE <col> IS NULL` statement per
field whose meta default is JS-truthy (a non-empty string — including
`"CURRENT_TIMESTAMP"` —, `true`, or a non-zero number), in declaration
order; fields whose default is `false`, `0`, the empty string, `null`,
or absent are skipped. -/
theorem backfill_truthy_amended (driver : Driver) (table : String)
    (fields : List (String × Field)) :
    applyDefaults driver table fields = fields.filterMap (backfillSpec driver table) := by
  induction fields with
  | nil => rfl
  | cons kf rest ih =>
    simp only [applyDefaults, List.filterMap_cons]
    by_cases h : truthy (rowGet kf.2.meta "default") = true
    · have hnn : (match rowGet kf.2.meta "default" with
                  | JVal.null => true | _ => false) = false := by
        cases hv : rowGet kf.2.meta "default" <;> simp_all [truthy]
      simp [backfillSpec, h, hnn, ih]
    · have h' : truthy (rowGet kf.2.meta "default") = false := by
        simpa using h
      simp [backfillSpec, h', ih]

/-- C4 (amended): the dialect lookup falls back to the `?`/double-quote
(sqlite) dialect only when no engine name — or an empty one — is
configured; for the recognized names statement construction produces a
result, but an unrecognized engine name such as `"oracle"` yields no
adapter, and `buildSql`/`ILike` fail instead of producing a result. -/
theorem dialect_default_amended :
    (∀ qb : QB, qb.ormDialect = none ∨ qb.ormDialect = some "" →
        effectiveDialect qb.ormDialect = "sqlite" ∧ (buildSql qb).isOk = true)
    ∧ (∀ qb : QB,
        qb.ormDialect = some "sqlite" ∨ qb.ormDialect = some "postgres" ∨
          qb.ormDialect = some "mysql" →
        (buildSql qb).isOk = true)
    ∧ Dialects "oracle" = none
    ∧ (∀ qb : QB, qb.ormDialect = some "oracle" →
        (qbILike qb "name" "x").isOk = false) := by
  refine ⟨?_, ?_, rfl, ?_⟩
  · intro qb h
    rcases h with h | h <;>
      exact ⟨by simp [effectiveDialect, h],
             by simp only [buildSql]; rw [h]; rfl⟩
  · intro qb h
    rcases h with h | h | h <;>
      · simp only [buildSql]; rw [h]; rfl
  · intro qb h
    simp only [qbILike]; rw [h]; rfl

/-- C4 (witness): a builder with no configured engine name uses the
sqlite dialect and builds successfully. -/
theorem dialect_default_witness :
    effectiveDialect (QB.ormDialect { table := "t", modelName := "M" }) = "sqlite"
    ∧ (buildSql { table := "t", modelName := "M" }).isOk = true :=
  dialect_default_amended.1 { table := "t", modelName := "M" } (Or.inl rfl)

/-- Membership in an appended exclude list. -/
theorem listContains_append (l₁ l₂ : List String) (k : String) :
    (l₁ ++ l₂).contains k = (l₁.contains k || l₂.contains k) := by
  induction l₁ with
  | nil => simp
  | cons a l ih => simp [List.contains_cons, ih, Bool.or_assoc]

/-- Scoped excludes of an appended exclude list. -/
theorem nestedFor_append (A B : List String) (k : String) :
    nestedFor (A ++ B) k = nestedFor A k ++ nestedFor B k := by
  simp [nestedFor, List.filter_append]

mutual
/-- Sequential exclusion equals exclusion by the appended path lists
(value case). -/
theorem remExVAux : ∀ (v : JVal) (A B : List String),
    removeExcluded (removeExcluded v A) B = removeExcluded v (A ++ B)
  | .null, _, _ => rfl
  | .undefined, _, _ => rfl
  | .bool _, _, _ => rfl
  | .num _, _, _ => rfl
  | .str _, _, _ => rfl
  | .arr xs, A, B => by
    simp only [removeExcluded]
    exact congrArg JVal.arr (remExAAux xs A B)
  | .obj kvs, A, B => by
    simp only [removeExcluded]
    exact congrArg JVal.obj (remExOAux kvs A B)

/-- Sequential exclusion equals exclusion by the appended path lists
(array elements). -/
theorem remExAAux : ∀ (xs : List JVal) (A B : List String),
    removeExcludedArr (removeExcludedArr xs A) B = removeExcludedArr xs (A ++ B)
  | [], _, _ => rfl
  | x :: xs, A, B => by
    simp only [removeExcludedArr]
    rw [remExVAux x A B, remExAAux xs A B]

/-- Sequential exclusion equals exclusion by the appended path lists
(object entries). -/
theorem remExOAux : ∀ (kvs : List (String × JVal)) (A B : List String),
    removeExcludedObj (removeExcludedObj kvs A) B = removeExcludedObj kvs (A ++ B)
  | [], _, _ => rfl
  | (k, v) :: rest, A, B => by
    by_cases hA : A.contains k = true
    · simp only [removeExcludedObj, hA, if_pos, listContains_append,
        Bool.true_or, remExOAux rest A B]
    · have hA' : A.contains k = false := by simpa using hA
      by_cases hB : B.contains k = true
      · simp only [removeExcludedObj, hA', listContains_append, hB,
          Bool.false_or, Bool.false_eq_true, if_false, if_true,
          remExOAux rest A B]
      · have hB' : B.contains k = false := by simpa using hB
        simp only [removeExcludedObj, hA', hB', listContains_append,
          Bool.or_self, Bool.false_eq_true, if_false, nestedFor_append,
          remExVAux v (nestedFor A k) (nestedFor B k), remExOAux rest A B]
end

/-- C7: field exclusion is a subtractive, order-independent set
operation — applying `removeExcluded` with path set `A` and then with
path set `B` equals applying it once with the union `A ∪ B` (realized as
the appended path list, which has the same membership). -/
theorem removeExcluded_union (v : JVal) (A B : List String) :
    removeExcluded (removeExcluded v A) B = removeExcluded v (A ++ B) :=
  remExVAux v A B

/-- Boolean coercion is idempotent. -/
theorem normBool_normBool (v : JVal) : normBool (normBool v) = normBool v := by
  cases h : (jeq v (.num 1) || jeq v (.bool true) || jeq v (.str "1")) <;>
    simp [normBool, h, jeq]

/-- Writing an existing key preserves the key list. -/
theorem rowSet_keys_of_has (row : Row) (k : String) (v : JVal)
    (h : rowHas row k = true) :
    (rowSet row k v).map Prod.fst = row.map Prod.fst := by
  simp only [rowSet, h, if_pos, List.map_map]
  apply List.map_congr_left
  intro p _
  by_cases hx : (p.1 == k) = true <;> simp [Function.comp, hx]

/-- With unique keys, any member pair's value is what `rowGet` reads. -/
theorem rowGet_of_mem_nodup (row : Row) (p : String × JVal)
    (h : (row.map Prod.fst).Nodup) (hp : p ∈ row) : rowGet row p.1 = p.2 := by
  induction row with
  | nil => cases hp
  | cons q rest ih =>
    rcases List.mem_cons.mp hp with rfl | hp'
    · simp [rowGet, List.find?]
    · have hne : (q.1 == p.1) = false := by
        have : q.1 ∉ rest.map Prod.fst := (List.nodup_cons.mp h).1
        have : q.1 ≠ p.1 := fun he => this (he ▸ List.mem_map_of_mem Prod.fst hp')
        simpa using this
      simp only [rowGet, List.find?]
      rw [hne]
      exact ih (List.nodup_cons.mp h).2 hp'

/-- `rowHas` is membership in the key list. -/
theorem rowHas_eq_mem (row : Row) (k : String) :
    rowHas row k = true ↔ k ∈ row.map Prod.fst := by
  constructor
  · intro hm
    obtain ⟨p, hp, he⟩ := List.any_eq_true.mp hm
    exact List.mem_map.mpr ⟨p, hp, beq_iff_eq.mp he⟩
  · intro hm
    obtain ⟨p, hp, he⟩ := List.mem_map.mp hm
    exact List.any_eq_true.mpr ⟨p, hp, beq_iff_eq.mpr he⟩

/-- Pointwise characterization of `mapBooleans` on rows with unique
keys: every value at a boolean-typed key is coerced, all others kept. -/
theorem mapBooleans_eq_map (fields : List (String × Field)) :
    ∀ (row : Row), (row.map Prod.fst).Nodup →
      mapBooleans row fields =
        row.map (fun p => if isBoolKeyIn fields p.1 then (p.1, normBool p.2) else p) := by
  induction fields with
  | nil =>
    intro row _
    simp [mapBooleans, isBoolKeyIn]
  | cons kf fs ih =>
    intro row h
    by_cases hc : (sIncludes (jsToLower kf.2.type) "boolean" && rowHas row kf.1) = true
    · simp only [Bool.and_eq_true] at hc
      obtain ⟨hb, hh⟩ := hc
      have hstep : mapBooleans row (kf :: fs) =
          mapBooleans (rowSet row kf.1 (normBool (rowGet row kf.1))) fs := by
        have he : mapBooleans row (kf :: fs) =
            mapBooleans (if sIncludes (jsToLower kf.2.type) "boolean" && rowHas row kf.1 then
                           rowSet row kf.1 (normBool (rowGet row kf.1))
                         else row) fs := rfl
        rw [he, if_pos (by simp [hb, hh])]
      have hkeys := rowSet_keys_of_has row kf.1 (normBool (rowGet row kf.1)) hh
      have h2 : ((rowSet row kf.1 (normBool (rowGet row kf.1))).map Prod.fst).Nodup := by
        rw [hkeys]; exact h
      rw [hstep, ih _ h2]
      have hset : rowSet row kf.1 (normBool (rowGet row kf.1)) =
          row.map (fun p => if p.1 == kf.1 then (p.1, normBool (rowGet row kf.1)) else p) := by
        simp [rowSet, hh]
      rw [hset, List.map_map]
      apply List.map_congr_left
      rintro ⟨pk, pv⟩ hp
      by_cases hk : pk = kf.1
      · subst hk
        have hget : rowGet row kf.1 = pv := rowGet_of_mem_nodup row (kf.1, pv) h hp
        have hhead : isBoolKeyIn (kf :: fs) kf.1 = true := by
          simp [isBoolKeyIn, hb]
        by_cases hfs : isBoolKeyIn fs kf.1 = true <;>
          simp [Function.comp, hfs, hhead, hget, normBool_normBool]
      · have hne1 : (pk == kf.1) = false := by
          simp only [beq_eq_false_iff_ne]; exact hk
        have hne2 : (kf.1 == pk) = false := by
          simp only [beq_eq_false_iff_ne]; exact fun he => hk he.symm
        rw [Function.comp_apply]
        dsimp only
        have hinner : (if (pk == kf.1) = true then
            (pk, normBool (rowGet row kf.1)) else (pk, pv)).1 = pk := by
          rw [hne1]
          simp
        simp only [isBoolKeyIn, List.any_cons, hinner]
        rw [hne1]
        simp only [Bool.false_eq_true, if_false]
        refine if_congr ?_ rfl rfl
        rw [hne2, Bool.and_false, Bool.false_or]
    · have hc' : (sIncludes (jsToLower kf.2.type) "boolean" && rowHas row kf.1) = false := by
        simpa using hc
      have hstep : mapBooleans row (kf :: fs) = mapBooleans row fs := by
        have he : mapBooleans row (kf :: fs) =
            mapBooleans (if sIncludes (jsToLower kf.2.type) "boolean" && rowHas row kf.1 then
                           rowSet row kf.1 (normBool (rowGet row kf.1))
                         else row) fs := rfl
        rw [he, if_neg (by simp [hc'])]
      rw [hstep, ih row h]
      apply List.map_congr_left
      rintro ⟨pk, pv⟩ hp
      have htail : isBoolKeyIn (kf :: fs) pk = isBoolKeyIn fs pk := by
        rcases Bool.and_eq_false_iff.mp hc' with hb | hh
        · simp [isBoolKeyIn, hb]
        · have hkm : kf.1 ∉ row.map Prod.fst := fun hm => by
            have hmm := (rowHas_eq_mem row kf.1).mpr hm
            rw [hmm] at hh; cases hh
          have hne : (kf.1 == pk) = false := by
            simp only [beq_eq_false_iff_ne]
            exact fun he => hkm (he ▸ List.mem_map_of_mem Prod.fst hp)
          simp [isBoolKeyIn, hne]
      dsimp only
      rw [htail]

/-- `mapBooleans` preserves the key list. -/
theorem mapBooleans_keys (fields : List (String × Field)) :
    ∀ (row : Row), (mapBooleans row fields).map Prod.fst = row.map Prod.fst := by
  induction fields with
  | nil => intro row; rfl
  | cons kf fs ih =>
    intro row
    have hstep : mapBooleans row (kf :: fs) =
        mapBooleans (if sIncludes (jsToLower kf.2.type) "boolean" && rowHas row kf.1 then
                       rowSet row kf.1 (normBool (rowGet row kf.1))
                     else row) fs := by
      simp [mapBooleans]
    rw [hstep]
    by_cases hc : (sIncludes (jsToLower kf.2.type) "boolean" && rowHas row kf.1) = true
    · have hh : rowHas row kf.1 = true := by
        simp only [Bool.and_eq_true] at hc
        exact hc.2
      rw [if_pos hc, ih]
      exact rowSet_keys_of_has row kf.1 _ hh
    · rw [if_neg hc, ih]

/-- C6: boolean normalization is idempotent on rows with unique keys
(JS objects), and matches the stated truth table: `1`, `true`, `"1"`
map to `true`; `0`, `false`, `"0"`, `null`, `"no"` map to `false`. -/
theorem mapBooleans_idempotent_truth_table :
    (∀ (row : Row) (fields : List (String × Field)), (row.map Prod.fst).Nodup →
        mapBooleans (mapBooleans row fields) fields = mapBooleans row fields)
    ∧ mapBooleans [("f", .num 1)] boolF = [("f", .bool true)]
    ∧ mapBooleans [("f", .bool true)] boolF = [("f", .bool true)]
    ∧ mapBooleans [("f", .str "1")] boolF = [("f", .bool true)]
    ∧ mapBooleans [("f", .num 0)] boolF = [("f", .bool false)]
    ∧ mapBooleans [("f", .bool false)] boolF = [("f", .bool false)]
    ∧ mapBooleans [("f", .str "0")] boolF = [("f", .bool false)]
    ∧ mapBooleans [("f", .null)] boolF = [("f", .bool false)]
    ∧ mapBooleans [("f", .str "no")] boolF = [("f", .bool false)] := by
  refine ⟨?_, rfl, rfl, rfl, rfl, rfl, rfl, rfl, rfl⟩
  intro row fields h
  rw [mapBooleans_eq_map fields row h]
  have hkeys2 : (row.map (fun p =>
      if isBoolKeyIn fields p.1 then (p.1, normBool p.2) else p)).map Prod.fst =
      row.map Prod.fst := by
    rw [List.map_map]
    apply List.map_congr_left
    intro p _
    by_cases hbk : isBoolKeyIn fields p.1 = true <;> simp [Function.comp, hbk]
  have h3 : ((row.map (fun p =>
      if isBoolKeyIn fields p.1 then (p.1, normBool p.2) else p)).map Prod.fst).Nodup := by
    rw [hkeys2]; exact h
  rw [mapBooleans_eq_map fields _ h3, List.map_map]
  apply List.map_congr_left
  intro p _
  by_cases hbk : isBoolKeyIn fields p.1 = true <;>
    simp [Function.comp, hbk, normBool_normBool]

/-- C6 (witness): idempotence at a concrete two-column row. -/
theorem mapBooleans_idempotent_witness :
    mapBooleans (mapBooleans [("f", .num 1), ("g", .str "x")] boolF) boolF =
      mapBooleans [("f", .num 1), ("g", .str "x")] boolF :=
  mapBooleans_idempotent_truth_table.1 [("f", .num 1), ("g", .str "x")] boolF
    (by decide)

/-- Folding a single element in the `Option` monad. -/
theorem foldlM_single {α β : Type} (f : β → α → Option β) (init : β) (e : α) :
    List.foldlM f init [e] = f init e := by
  cases h : f init e <;> simp [List.foldlM, h]

/-- C2 (amended): when the parent batch yields no usable key values for
a preloaded relation, every parent row's relation field is set to `[]`
for one-to-many and to `null` for every other kind (many-to-one,
one-to-one, and also many-to-many), and no SQL query is issued. -/
theorem preload_empty_keys_amended
    {ms ts : ModelSchema} {rel : RelationMeta}
    (env : PreEnv) (preloads excl : List String) (rows : List Row)
    (root : String) (rest : List String)
    (h1 : schemaFind env.schema env.modelName = some ms)
    (h2 : groupPreloads preloads = [(root, rest)])
    (h3 : (relationsOf ms.fields).find? (fun r => r.fieldName == root) = some rel)
    (h4 : schemaFind env.schema (jvalToString rel.targetModel) = some ts)
    (h5 : (parentIdsOf (pkKeyOf ms) rows).isEmpty = true)
    (h6 : rows.isEmpty = false) :
    applyPreloads env preloads excl rows =
      some (rows.map (fun r => applyExcludes excl
        (rowSet r root (if rel.kind == "onetomany" then .arr [] else .null))), []) := by
  unfold applyPreloads preloadFuel
  simp only [applyPreloadsF, h6, Bool.false_eq_true, if_false, h1, h2,
    foldlM_single, preloadStep, h3, h4, h5, if_true, List.map_map]
  rfl

/-- C2 (witness): the many-to-many scenario with a single zero-keyed
parent. -/
theorem preload_empty_keys_witness :
    applyPreloads envMM ["tags"] [] [[("id", .num 0)]] =
      some ([[("id", .num 0)]].map (fun r => applyExcludes []
        (rowSet r "tags" (if "manytomany" == "onetomany" then .arr [] else .null))), []) :=
  preload_empty_keys_amended envMM ["tags"] [] [[("id", .num 0)]] "tags" []
    rfl rfl rfl rfl rfl rfl

/-- Full characterization of a one-root, no-nesting, one-to-many preload
resolution with a nonempty usable key batch: the updated rows and the
single issued statement. -/
theorem onetomany_single_run
    {ms ts : ModelSchema} {rel : RelationMeta} {d : DialectAdapter}
    (env : PreEnv) (preloads excl : List String) (rows : List Row) (root : String)
    (h1 : schemaFind env.schema env.modelName = some ms)
    (h2 : groupPreloads preloads = [(root, [])])
    (h3 : (relationsOf ms.fields).find? (fun r => r.fieldName == root) = some rel)
    (h4 : rel.kind = "onetomany")
    (h5 : truthy rel.foreignKey = true)
    (h6 : schemaFind env.schema (jvalToString rel.targetModel) = some ts)
    (h7 : (parentIdsOf (pkKeyOf ms) rows).isEmpty = false)
    (h8 : Dialects (effectiveDialect env.ormDialect) = some d) :
    applyPreloads env preloads excl rows =
      some (rows.map (fun row => applyExcludes excl (rowSet row root (.arr
          (((env.exec (sqlOneToMany d ts.table (jvalToString rel.foreignKey)
              (placeholdersFor d (parentIdsOf (pkKeyOf ms) rows).length))
              (parentIdsOf (pkKeyOf ms) rows)).filter
                (fun r => jeq (rowGet r (jvalToString rel.foreignKey)) (rowGet row (pkKeyOf ms)))).map
              (fun r => .obj (cleanRow excl ts.fields root r)))))),
        [(sqlOneToMany d ts.table (jvalToString rel.foreignKey)
            (placeholdersFor d (parentIdsOf (pkKeyOf ms) rows).length),
          parentIdsOf (pkKeyOf ms) rows)]) := by
  have h6' : rows.isEmpty = false := by
    cases rows with
    | nil => simp [parentIdsOf] at h7
    | cons a l => rfl
  have h4' : (rel.kind == "onetomany") = true := by simp [h4]
  unfold applyPreloads preloadFuel
  simp only [applyPreloadsF, h6', Bool.false_eq_true, if_false, h1, h2,
    foldlM_single, preloadStep, preloadSwitch, h3, h6, h5, h7, h8, h4', if_true,
    Bool.not_true, List.isEmpty_nil, Bool.true_or, List.map_map]
  rfl

/-- C5: for a parent batch of N ≥ 1 rows sharing a one-to-many relation
with no nested preloads under it and a nonempty usable key batch,
`applyPreloads` issues exactly one SQL statement — the single
`WHERE foreignKey IN (...)` query whose parameters are the batch keys —
regardless of N. -/
theorem onetomany_single_query
    {ms ts : ModelSchema} {rel : RelationMeta} {d : DialectAdapter}
    (env : PreEnv) (preloads excl : List String) (rows : List Row) (root : String)
    (h1 : schemaFind env.schema env.modelName = some ms)
    (h2 : groupPreloads preloads = [(root, [])])
    (h3 : (relationsOf ms.fields).find? (fun r => r.fieldName == root) = some rel)
    (h4 : rel.kind = "onetomany")
    (h5 : truthy rel.foreignKey = true)
    (h6 : schemaFind env.schema (jvalToString rel.targetModel) = some ts)
    (h7 : (parentIdsOf (pkKeyOf ms) rows).isEmpty = false)
    (h8 : Dialects (effectiveDialect env.ormDialect) = some d) :
    (applyPreloads env preloads excl rows).map Prod.snd =
      some [(sqlOneToMany d ts.table (jvalToString rel.foreignKey)
          (placeholdersFor d (parentIdsOf (pkKeyOf ms) rows).length),
        parentIdsOf (pkKeyOf ms) rows)] := by
  rw [onetomany_single_run env preloads excl rows root h1 h2 h3 h4 h5 h6 h7 h8]
  rfl

/-- C5 (witness): a singleton batch issues exactly the one IN query. -/
theorem onetomany_single_query_witness :
    (applyPreloads envUP ["posts"] [] [[("id", .num 1)]]).map Prod.snd =
      some [(sqlOneToMany sqliteD "posts" "userId" "?", [.num 1])] := by
  have h := onetomany_single_query envUP ["posts"] [] [[("id", .num 1)]] "posts"
    rfl rfl rfl rfl rfl rfl rfl rfl
  exact h

/-- C10: the batched IN-list keys are filtered by JS truthiness — the
issued query's parameters are exactly `rows.map(r => r[pk])` filtered by
`Boolean` — so a parent row whose key is `0` (or `""`, `false`, `null`,
`undefined`) is silently excluded; concretely, with the database holding
a post whose `userId` is `0`, the user row with primary key `0` receives
`posts: []` and its related rows are never fetched (the single query's
parameters are `[1]`). -/
theorem truthiness_key_filter :
    (∀ {ms ts : ModelSchema} {rel : RelationMeta} {d : DialectAdapter}
      (env : PreEnv) (preloads excl : List String) (rows : List Row) (root : String),
      schemaFind env.schema env.modelName = some ms →
      groupPreloads preloads = [(root, [])] →
      (relationsOf ms.fields).find? (fun r => r.fieldName == root) = some rel →
      rel.kind = "onetomany" →
      truthy rel.foreignKey = true →
      schemaFind env.schema (jvalToString rel.targetModel) = some ts →
      (parentIdsOf (pkKeyOf ms) rows).isEmpty = false →
      Dialects (effectiveDialect env.ormDialect) = some d →
      (applyPreloads env preloads excl rows).map Prod.snd =
        some [(sqlOneToMany d ts.table (jvalToString rel.foreignKey)
            (placeholdersFor d ((rows.map (fun r => rowGet r (pkKeyOf ms))).filter truthy).length),
          (rows.map (fun r => rowGet r (pkKeyOf ms))).filter truthy)])
    ∧ applyPreloads envUP ["posts"] [] [[("id", .num 0)], [("id", .num 1)]] =
      some ([[("id", .num 0), ("posts", .arr [])],
             [("id", .num 1), ("posts", .arr [.obj [("id", .num 11), ("userId", .num 1)]])]],
            [(sqlOneToMany sqliteD "posts" "userId" "?", [.num 1])])
    ∧ execUP (sqlOneToMany sqliteD "posts" "userId" "?") [.num 0, .num 1] =
      [[("id", .num 10), ("userId", .num 0)], [("id", .num 11), ("userId", .num 1)]] := by
  refine ⟨?_, rfl, rfl⟩
  intro ms ts rel d env preloads excl rows root h1 h2 h3 h4 h5 h6 h7 h8
  rw [onetomany_single_run env preloads excl rows root h1 h2 h3 h4 h5 h6 h7 h8]
  rfl

/-- C10 (witness): the two-row batch with keys `0` and `1`. -/
theorem truthiness_key_filter_witness :
    (applyPreloads envUP ["posts"] [] [[("id", .num 0)], [("id", .num 1)]]).map Prod.snd =
      some [(sqlOneToMany sqliteD "posts" "userId" "?", [.num 1])] := by
  have h := truthiness_key_filter.1 envUP ["posts"] [] [[("id", .num 0)], [("id", .num 1)]]
    "posts" rfl rfl rfl rfl rfl rfl rfl rfl
  exact h

/-- Splitting never yields an empty segment list. -/
theorem charSplit_ne_nil (sep : Char) (l : List Char) : charSplit sep l ≠ [] := by
  cases l with
  | nil => simp [charSplit]
  | cons c rest =>
    simp only [charSplit]
    split
    · simp
    · split <;> simp

/-- Joining a head before a nonempty tail. -/
theorem charJoin_cons (sep : Char) (l : List Char) (ls : List (List Char))
    (h : ls ≠ []) : charJoin sep (l :: ls) = l ++ sep :: charJoin sep ls := by
  cases ls with
  | nil => exact absurd rfl h
  | cons a t => rfl

/-- A separator-free list splits to itself. -/
theorem charSplit_sepFree (sep : Char) (l : List Char) (h : sep ∉ l) :
    charSplit sep l = [l] := by
  induction l with
  | nil => rfl
  | cons c rest ih =>
    have hc : ¬c = sep := fun he => h (he ▸ List.mem_cons_self c rest)
    have hr := ih (fun hm => h (List.mem_cons_of_mem c hm))
    simp [charSplit, hc, hr]

/-- Splitting a separator-free prefix followed by a separator. -/
theorem charSplit_append (sep : Char) (p : List Char) (h : sep ∉ p) :
    ∀ t, charSplit sep (p ++ sep :: t) = p :: charSplit sep t := by
  induction p with
  | nil => intro t; simp [charSplit]
  | cons c p' ih =>
    intro t
    have hc : ¬c = sep := fun he => h (he ▸ List.mem_cons_self c p')
    have hr := ih (fun hm => h (List.mem_cons_of_mem c hm)) t
    simp [charSplit, hc, hr]

/-- Every segment produced by the split is separator-free. -/
theorem charSplit_mem_sepFree (sep : Char) (l : List Char) :
    ∀ part ∈ charSplit sep l, sep ∉ part := by
  induction l with
  | nil =>
    intro part hp
    simp [charSplit] at hp
    simp [hp]
  | cons c rest ih =>
    intro part hp
    by_cases hc : c = sep
    · simp only [charSplit, hc, if_pos] at hp
      rcases List.mem_cons.mp hp with rfl | hp'
      · simp
      · exact ih part hp'
    · simp only [charSplit, hc, if_false] at hp
      cases hsp : charSplit sep rest with
      | nil => exact absurd hsp (charSplit_ne_nil sep rest)
      | cons l0 ls =>
        rw [hsp] at hp
        rcases List.mem_cons.mp hp with rfl | hp'
        · intro hm
          rcases List.mem_cons.mp hm with he | hm'
          · exact hc he.symm
          · exact ih l0 (hsp ▸ List.mem_cons_self l0 ls) hm'
        · exact ih part (hsp ▸ List.mem_cons_of_mem l0 hp')

/-- Splitting inverts joining for nonempty, separator-free segments. -/
theorem charSplit_charJoin (sep : Char) :
    ∀ (parts : List (List Char)), parts ≠ [] → (∀ p ∈ parts, sep ∉ p) →
      charSplit sep (charJoin sep parts) = parts := by
  intro parts
  induction parts with
  | nil => intro h; exact absurd rfl h
  | cons p ps ih =>
    intro _ hf
    cases ps with
    | nil => exact charSplit_sepFree sep p (hf p (List.mem_cons_self p []))
    | cons q qs =>
      rw [charJoin_cons sep p (q :: qs) (by simp),
        charSplit_append sep p (hf p (List.mem_cons_self p (q :: qs))),
        ih (by simp) (fun x hx => hf x (List.mem_cons_of_mem p hx))]

/-- Rejoining the tail of a dotted path drops exactly one segment. -/
theorem nested_pathDepth (p : String) (h : ((jsSplit '.' p).drop 1).isEmpty = false) :
    pathDepth (jsJoin '.' ((jsSplit '.' p).drop 1)) + 1 = pathDepth p := by
  have hmapdrop : (jsSplit '.' p).drop 1 = ((charSplit '.' p.data).drop 1).map String.mk := by
    simp [jsSplit, List.map_drop]
  have hconv : ∀ (L : List (List Char)), L.map (String.data ∘ String.mk) = L := by
    intro L
    induction L with
    | nil => rfl
    | cons a t iht =>
      simp only [List.map_cons, iht]
      rfl
  have hdata : (((charSplit '.' p.data).drop 1).map String.mk).map String.data =
      (charSplit '.' p.data).drop 1 := by
    rw [List.map_map, hconv]
  have hne : (charSplit '.' p.data).drop 1 ≠ [] := by
    intro he
    rw [hmapdrop, he] at h
    simp at h
  have hfree : ∀ q ∈ (charSplit '.' p.data).drop 1, '.' ∉ q := fun q hq =>
    charSplit_mem_sepFree '.' p.data q (List.drop_subset 1 _ hq)
  have hlen : 1 ≤ (charSplit '.' p.data).length := by
    cases hsp : charSplit '.' p.data with
    | nil => exact absurd hsp (charSplit_ne_nil '.' p.data)
    | cons a t => simp
  have hdrop : ((charSplit '.' p.data).drop 1).length = (charSplit '.' p.data).length - 1 := by
    simp
  rw [hmapdrop]
  show (charSplit '.' (jsJoin '.' (((charSplit '.' p.data).drop 1).map String.mk)).data).length + 1 =
    pathDepth p
  have hjoin : (jsJoin '.' (((charSplit '.' p.data).drop 1).map String.mk)).data =
      charJoin '.' ((charSplit '.' p.data).drop 1) := by
    simp only [jsJoin]
    rw [hdata]
  rw [hjoin, charSplit_charJoin '.' _ hne hfree, hdrop]
  unfold pathDepth
  omega

/-- Every nested path registered by the grouping loop is one segment
shorter than some requested path: depth bound for the recursion. -/
theorem groupPreloads_rest_bound (D : Nat) (ps : List String)
    (hps : ∀ p ∈ ps, pathDepth p ≤ D) :
    ∀ e ∈ groupPreloads ps, ∀ r ∈ e.2, pathDepth r + 1 ≤ D := by
  have aux : ∀ (l : List String) (acc : List (String × List String)),
      (∀ p ∈ l, pathDepth p ≤ D) →
      (∀ e ∈ acc, ∀ r ∈ e.2, pathDepth r + 1 ≤ D) →
      ∀ e ∈ l.foldl groupStep acc, ∀ r ∈ e.2, pathDepth r + 1 ≤ D := by
    intro l
    induction l with
    | nil =>
      intro acc _ hacc
      simpa using hacc
    | cons p ps' ih =>
      intro acc hl hacc
      simp only [List.foldl_cons]
      apply ih _ (fun q hq => hl q (List.mem_cons_of_mem p hq))
      intro e he r hr
      have hadd : ∀ r', r' ∈ (if ((jsSplit '.' p).drop 1).isEmpty then ([] : List String)
          else [jsJoin '.' ((jsSplit '.' p).drop 1)]) → pathDepth r' + 1 ≤ D := by
        intro r' hr'
        by_cases hre : ((jsSplit '.' p).drop 1).isEmpty = true
        · rw [if_pos hre] at hr'
          cases hr'
        · have hre' : ((jsSplit '.' p).drop 1).isEmpty = false := by simpa using hre
          rw [if_neg (fun hc => by rw [hre'] at hc; exact Bool.noConfusion hc)] at hr'
          rcases List.mem_cons.mp hr' with rfl | hr''
          · rw [nested_pathDepth p hre']
            exact hl p (List.mem_cons_self p ps')
          · cases hr''
      simp only [groupStep] at he
      by_cases hmem : (acc.any (fun e => e.1 == (jsSplit '.' p).headD "")) = true
      · rw [if_pos hmem] at he
        obtain ⟨e0, he0, heq⟩ := List.mem_map.mp he
        by_cases hroot : (e0.1 == (jsSplit '.' p).headD "") = true
        · rw [if_pos hroot] at heq
          subst heq
          rcases List.mem_append.mp hr with hr1 | hr2
          · exact hacc e0 he0 r hr1
          · exact hadd r hr2
        · rw [if_neg (by simpa using hroot)] at heq
          subst heq
          exact hacc e0 he0 r hr
      · rw [if_neg (by simpa using hmem)] at he
        rcases List.mem_append.mp he with he1 | he2
        · exact hacc e he1 r hr
        · rcases List.mem_cons.mp he2 with rfl | h2
          · exact hadd r hr
          · cases h2
  exact aux ps [] hps (by intro e he; cases he)

/-- Folding `Option`-valued steps over a list succeeds when every step
does. -/
theorem foldlM_option_isSome {α β : Type} (f : β → α → Option β) :
    ∀ (l : List α) (init : β), (∀ st e, e ∈ l → (f st e).isSome = true) →
      (List.foldlM f init l).isSome = true := by
  intro l
  induction l with
  | nil => intro init _; rfl
  | cons e l' ih =>
    intro init h
    obtain ⟨st, hst⟩ := Option.isSome_iff_exists.mp (h init e (List.mem_cons_self e l'))
    have hred : List.foldlM f init (e :: l') = List.foldlM f st l' := by
      simp [List.foldlM, hst]
    rw [hred]
    exact ih st (fun s x hx => h s x (List.mem_cons_of_mem e hx))

/-- One resolution step never fails when the dialect adapter resolves
and the nested recursion (used only when nested paths exist) always
succeeds. -/
theorem preloadStep_isSome
    (recurse : List String → List String → List Row → Option (List Row × Trace))
    (env : PreEnv) (excl : List String) (ms : ModelSchema)
    (st : List Row × Trace) (entry : String × List String) (d : DialectAdapter)
    (hd : Dialects (effectiveDialect env.ormDialect) = some d)
    (hrec : entry.2 ≠ [] → ∀ e r, (recurse entry.2 e r).isSome = true) :
    (preloadStep recurse env excl ms st entry).isSome = true := by
  unfold preloadStep
  dsimp only
  rw [hd]
  dsimp only
  split
  · rfl
  · split
    · rfl
    · split
      · rfl
      · split
        · rfl
        · rename_i hnb
          have hne : entry.2 ≠ [] := by
            intro he
            rw [he] at hnb
            simp at hnb
          obtain ⟨res, hres⟩ :=
            Option.isSome_iff_exists.mp (hrec hne _ _)
          rw [hres]
          dsimp only
          split
          · rfl
          · split
            · rfl
            · split
              · rfl
              · rfl

/-- Sufficient fuel makes the preload resolution total: each recursion
level consumes one segment of every nested dotted path, so a fuel bound
above every path's segment count rules out exhaustion. -/
theorem applyPreloadsF_isSome :
    ∀ (fuel : Nat) (env : PreEnv) (preloads excl : List String) (rows : List Row)
      (d : DialectAdapter),
      Dialects (effectiveDialect env.ormDialect) = some d →
      (∀ p ∈ preloads, pathDepth p < fuel) →
      0 < fuel →
      (applyPreloadsF fuel env preloads excl rows).isSome = true := by
  intro fuel
  induction fuel with
  | zero =>
    intro _ _ _ _ _ _ _ h0
    exact absurd h0 (by omega)
  | succ n ih =>
    intro env preloads excl rows d hd hdep _
    simp only [applyPreloadsF]
    split
    · rfl
    · split
      · rfl
      · rename_i ms hms
        have hD : ∀ p ∈ preloads, pathDepth p ≤ n := fun p hp => by
          have := hdep p hp
          omega
        have hfold : ((groupPreloads preloads).foldlM
            (preloadStep (fun p e r => applyPreloadsF n env p e r) env excl ms)
            ((rows, []) : List Row × Trace)).isSome = true := by
          apply foldlM_option_isSome
          intro s e he
          apply preloadStep_isSome _ env excl ms s e d hd
          intro hne e2 r2
          have hbound := groupPreloads_rest_bound n preloads hD e he
          obtain ⟨r0, hr0⟩ := List.exists_mem_of_ne_nil _ hne
          exact ih env e.2 e2 r2 d hd
            (fun r hr => by have := hbound r hr; omega)
            (by have := hbound r0 hr0; omega)
        obtain ⟨res, hres⟩ := Option.isSome_iff_exists.mp hfold
        rw [hres]
        rfl

/-- The default fuel strictly bounds every requested path's depth. -/
theorem pathDepth_lt_preloadFuel (ps : List String) :
    ∀ p ∈ ps, pathDepth p < preloadFuel ps := by
  have aux : ∀ (l : List String) (a : Nat),
      a ≤ l.foldl (fun m p => max m (pathDepth p)) a ∧
      ∀ p ∈ l, pathDepth p ≤ l.foldl (fun m p => max m (pathDepth p)) a := by
    intro l
    induction l with
    | nil => intro a; exact ⟨Nat.le_refl a, by intro p hp; cases hp⟩
    | cons q l' ih =>
      intro a
      constructor
      · exact Nat.le_trans (Nat.le_max_left a (pathDepth q)) (ih (max a (pathDepth q))).1
      · intro p hp
        rcases List.mem_cons.mp hp with rfl | hp'
        · exact Nat.le_trans (Nat.le_max_right a (pathDepth p)) (ih (max a (pathDepth p))).1
        · exact (ih (max a (pathDepth q))).2 p hp'
  intro p hp
  have := (aux ps 0).2 p hp
  unfold preloadFuel
  omega

/-- C1 (amended): no visited-set exists, but `applyPreloads` terminates
on every input — in particular on every relation graph containing a
cycle — whenever the configured engine name resolves to a dialect
adapter, because each recursion level consumes one segment of the
finite dotted preload paths; on the concrete cyclic graph the second
visit to the same `(model, relationField)` pair issues one additional
SQL query (two queries in total), rather than none. -/
theorem preload_cycle_amended :
    (∀ (env : PreEnv) (preloads excl : List String) (rows : List Row)
        (d : DialectAdapter),
        Dialects (effectiveDialect env.ormDialect) = some d →
        (applyPreloads env preloads excl rows).isSome = true)
    ∧ (applyPreloads envMgr ["manager.manager"] [] mgrRows).map
        (fun res => res.2.length) = some 2 := by
  refine ⟨?_, rfl⟩
  intro env preloads excl rows d hd
  exact applyPreloadsF_isSome (preloadFuel preloads) env preloads excl rows d hd
    (pathDepth_lt_preloadFuel preloads) (by unfold preloadFuel; omega)

/-- C1 (witness): the cyclic scenario resolves to a result. -/
theorem preload_cycle_witness :
    (applyPreloads envMgr ["manager.manager"] [] mgrRows).isSome = true :=
  preload_cycle_amended.1 envMgr ["manager.manager"] [] mgrRows sqliteD rfl

end Slintorm
